import Mathlib

/-!
Verification of the ROS2 bag recording and status dashboard repository.

This file gives a shallow embedding, in Lean 4, of the parts of the
repository that the checked claims are about:

* the chunked upload server (src/upload_server.py);
* the recording isolation test harness (src/test_recording_isolation.py);
* the adaptive performance mode manager (src/core/performance_modes.py);
* the message rate recording trigger (src/core/recording_triggers.py);
* the metrics collector (src/core/metrics_collector.py);
* the network robot discovery service (src/core/network_discovery.py).

Python dictionaries are embedded as association lists with insertion-order
preserving update, as CPython guarantees.  Machine floats are embedded as
rationals; byte strings as lists of naturals.  External effects (the clock,
psutil readings, subprocess results, uploaded chunk payloads) are passed in
explicitly as parameters of the embedded operations.
-/

/-! ## Python dictionary model (insertion ordered association lists) -/

/-- Lookup in a Python dictionary: the value stored at the first (and for a
real dictionary, only) occurrence of the key. -/
def dictGet {κ α : Type} [DecidableEq κ] (d : List (κ × α)) (k : κ) : Option α :=
  match d with
  | [] => none
  | (k1, v1) :: rest => if k1 = k then some v1 else dictGet rest k

/-- Assignment in a Python dictionary: replaces the value at an existing key
in place, otherwise appends the new binding at the end. -/
def dictSet {κ α : Type} [DecidableEq κ] (d : List (κ × α)) (k : κ) (v : α) :
    List (κ × α) :=
  match d with
  | [] => [(k, v)]
  | (k1, v1) :: rest => if k1 = k then (k, v) :: rest else (k1, v1) :: dictSet rest k v

/-- Deletion from a Python dictionary: removes the first occurrence of the key. -/
def dictDel {κ α : Type} [DecidableEq κ] (d : List (κ × α)) (k : κ) : List (κ × α) :=
  match d with
  | [] => []
  | (k1, v1) :: rest => if k1 = k then rest else (k1, v1) :: dictDel rest k

/-- Applies every binding of the second dictionary to the first, as Python
dict.update does. -/
def dictMerge {κ α : Type} [DecidableEq κ] (d other : List (κ × α)) : List (κ × α) :=
  other.foldl (fun acc kv => dictSet acc kv.1 kv.2) d

theorem dictSet_keys_of_mem {κ α : Type} [DecidableEq κ]
    (d : List (κ × α)) (k : κ) (v : α) (hk : k ∈ d.map Prod.fst) :
    (dictSet d k v).map Prod.fst = d.map Prod.fst := by
  induction d with
  | nil => simp at hk
  | cons hd tl ih =>
    by_cases h : hd.1 = k
    · simp [dictSet, h]
    · simp only [List.map_cons, List.mem_cons] at hk
      rcases hk with hk | hk
      · exact absurd hk.symm h
      · simp [dictSet, h, ih hk]

theorem dictSet_keys_of_not_mem {κ α : Type} [DecidableEq κ]
    (d : List (κ × α)) (k : κ) (v : α) (hk : k ∉ d.map Prod.fst) :
    (dictSet d k v).map Prod.fst = d.map Prod.fst ++ [k] := by
  induction d with
  | nil => simp [dictSet]
  | cons hd tl ih =>
    simp only [List.map_cons, List.mem_cons] at hk
    push_neg at hk
    simp [dictSet, Ne.symm hk.1, ih hk.2]

theorem dictGet_dictSet_same {κ α : Type} [DecidableEq κ]
    (d : List (κ × α)) (k : κ) (v : α) :
    dictGet (dictSet d k v) k = some v := by
  induction d with
  | nil => simp [dictSet, dictGet]
  | cons hd tl ih =>
    by_cases h : hd.1 = k
    · simp [dictSet, h, dictGet]
    · simp [dictSet, h, dictGet, ih]

theorem dictGet_dictSet_other {κ α : Type} [DecidableEq κ]
    (d : List (κ × α)) (k k2 : κ) (v : α) (hne : k ≠ k2) :
    dictGet (dictSet d k v) k2 = dictGet d k2 := by
  induction d with
  | nil => simp [dictSet, dictGet, hne]
  | cons hd tl ih =>
    by_cases h : hd.1 = k
    · simp [dictSet, h, dictGet, hne]
    · simp only [dictSet, if_neg h]
      by_cases h2 : hd.1 = k2
      · simp [dictGet, h2]
      · simp [dictGet, h2, ih]

theorem dictGet_isSome_of_mem_keys {κ α : Type} [DecidableEq κ]
    (d : List (κ × α)) (k : κ) (hk : k ∈ d.map Prod.fst) :
    (dictGet d k).isSome := by
  induction d with
  | nil => simp at hk
  | cons hd tl ih =>
    by_cases h : hd.1 = k
    · simp [dictGet, h]
    · simp only [List.map_cons, List.mem_cons] at hk
      rcases hk with hk | hk
      · exact absurd hk.symm h
      · simp only [dictGet, if_neg h]
        exact ih hk

theorem dictGet_eq_none_of_not_mem_keys {κ α : Type} [DecidableEq κ]
    (d : List (κ × α)) (k : κ) (hk : k ∉ d.map Prod.fst) :
    dictGet d k = none := by
  induction d with
  | nil => simp [dictGet]
  | cons hd tl ih =>
    simp only [List.map_cons, List.mem_cons] at hk
    push_neg at hk
    simp only [dictGet, if_neg (Ne.symm hk.1)]
    exact ih hk.2

/-! ## Adaptive performance modes (src/core/performance_modes.py) -/

/-- Performance mode levels, as in the PerformanceMode enum. -/
inductive PerformanceMode where
  | HIGH
  | BALANCED
  | LOW
  | CUSTOM
deriving DecidableEq, Repr

/-- Value stored in a performance settings table: Python int, float, bool or
string literals. -/
inductive SettingValue where
  | int (n : ℤ)
  | float (q : ℚ)
  | bool (b : Bool)
  | str (s : String)
deriving DecidableEq, Repr

/-- Embeds PerformanceModeManager._auto_detect_mode: HIGH for 16GB+/8+ cores,
LOW for <8GB or <4 cores, BALANCED otherwise. -/
def autoDetectMode (memoryGb : ℚ) (cpuCount : ℕ) : PerformanceMode :=
  if 16 ≤ memoryGb ∧ 8 ≤ cpuCount then PerformanceMode.HIGH
  else if memoryGb < 8 ∨ cpuCount < 4 then PerformanceMode.LOW
  else PerformanceMode.BALANCED

/-- Settings table returned by get_mode_settings for the HIGH mode. -/
def highModeSettings : List (String × SettingValue) :=
  [("ros2_update_interval", SettingValue.int 1000),
   ("metrics_update_interval", SettingValue.int 250),
   ("history_update_interval", SettingValue.int 5000),
   ("chart_update_interval", SettingValue.int 500),
   ("max_threads", SettingValue.int 6),
   ("max_concurrent_threads", SettingValue.int 4),
   ("cache_timeout", SettingValue.int 1),
   ("system_metrics_cache", SettingValue.float (1/2)),
   ("topic_check_interval", SettingValue.int 1),
   ("chart_buffer_size", SettingValue.int 120),
   ("chart_auto_pause", SettingValue.bool false),
   ("history_max_entries", SettingValue.int 1000),
   ("enable_profiler", SettingValue.bool true),
   ("enable_advanced_features", SettingValue.bool true),
   ("lazy_load_widgets", SettingValue.bool false),
   ("process_priority", SettingValue.str "normal")]

/-- Settings table returned by get_mode_settings for the BALANCED mode. -/
def balancedModeSettings : List (String × SettingValue) :=
  [("ros2_update_interval", SettingValue.int 3000),
   ("metrics_update_interval", SettingValue.int 500),
   ("history_update_interval", SettingValue.int 15000),
   ("chart_update_interval", SettingValue.int 1000),
   ("max_threads", SettingValue.int 3),
   ("max_concurrent_threads", SettingValue.int 2),
   ("cache_timeout", SettingValue.int 3),
   ("system_metrics_cache", SettingValue.int 1),
   ("topic_check_interval", SettingValue.int 3),
   ("chart_buffer_size", SettingValue.int 60),
   ("chart_auto_pause", SettingValue.bool true),
   ("history_max_entries", SettingValue.int 500),
   ("enable_profiler", SettingValue.bool true),
   ("enable_advanced_features", SettingValue.bool true),
   ("lazy_load_widgets", SettingValue.bool true),
   ("process_priority", SettingValue.str "normal")]

/-- Settings table returned by get_mode_settings for the LOW mode. -/
def lowModeSettings : List (String × SettingValue) :=
  [("ros2_update_interval", SettingValue.int 5000),
   ("metrics_update_interval", SettingValue.int 1000),
   ("history_update_interval", SettingValue.int 30000),
   ("chart_update_interval", SettingValue.int 2000),
   ("max_threads", SettingValue.int 2),
   ("max_concurrent_threads", SettingValue.int 1),
   ("cache_timeout", SettingValue.int 5),
   ("system_metrics_cache", SettingValue.int 2),
   ("topic_check_interval", SettingValue.int 5),
   ("chart_buffer_size", SettingValue.int 30),
   ("chart_auto_pause", SettingValue.bool true),
   ("history_max_entries", SettingValue.int 200),
   ("enable_profiler", SettingValue.bool false),
   ("enable_advanced_features", SettingValue.bool true),
   ("lazy_load_widgets", SettingValue.bool true),
   ("process_priority", SettingValue.str "below_normal")]

/-- Embeds PerformanceModeManager.get_mode_settings.  The customSettings
argument is the manager's _custom_settings field; a CUSTOM mode with a falsy
(absent or empty) custom table falls through the if/elif chain to the final
else branch, which returns the LOW table. -/
def getModeSettings (customSettings : Option (List (String × SettingValue)))
    (mode : PerformanceMode) : List (String × SettingValue) :=
  match mode, customSettings with
  | PerformanceMode.CUSTOM, some t =>
      if t.isEmpty then lowModeSettings else t
  | PerformanceMode.CUSTOM, none => lowModeSettings
  | PerformanceMode.HIGH, _ => highModeSettings
  | PerformanceMode.BALANCED, _ => balancedModeSettings
  | PerformanceMode.LOW, _ => lowModeSettings

/-- Keys of the sixteen-entry settings table of spec section 4.2. -/
def specSettingsKeys : List String :=
  ["ros2_update_interval", "metrics_update_interval", "history_update_interval",
   "chart_update_interval", "max_threads", "max_concurrent_threads",
   "cache_timeout", "system_metrics_cache", "topic_check_interval",
   "chart_buffer_size", "chart_auto_pause", "history_max_entries",
   "enable_profiler", "enable_advanced_features", "lazy_load_widgets",
   "process_priority"]

/-! ## Message rate trigger (src/core/recording_triggers.py) -/

/-- Event emitted through the trigger_activated / trigger_deactivated Qt
signals. -/
inductive TriggerEvent where
  | activation
  | deactivation
deriving DecidableEq, Repr

/-- State of a MessageRateTrigger: threshold from the constructor, enabled and
activated from the RecordingTrigger base class. -/
structure MessageRateTrigger where
  threshold : ℚ
  enabled : Bool
  activated : Bool
deriving DecidableEq, Repr

/-- Constructs MessageRateTrigger(threshold_msg_per_sec): the base class sets
enabled to True and activated to False. -/
def mkMessageRateTrigger (thresholdMsgPerSec : ℚ) : MessageRateTrigger :=
  { threshold := thresholdMsgPerSec, enabled := true, activated := false }

/-- Embeds MessageRateTrigger.check, given the message_rate read from the
metrics dictionary.  Returns the updated trigger state, the boolean result,
and the signal emissions performed during the call. -/
def MessageRateTrigger.check (t : MessageRateTrigger) (messageRate : ℚ) :
    MessageRateTrigger × Bool × List TriggerEvent :=
  if !t.enabled then (t, false, [])
  else if t.threshold ≤ messageRate then
    if !t.activated then
      ({ t with activated := true }, true, [TriggerEvent.activation])
    else (t, true, [])
  else
    if t.activated then
      ({ t with activated := false }, false, [TriggerEvent.deactivation])
    else (t, false, [])

/-- Runs a sequence of check calls against successive message rates, returning
the result and emissions of each call. -/
def runRateChecks (t : MessageRateTrigger) (rates : List ℚ) :
    List (Bool × List TriggerEvent) :=
  match rates with
  | [] => []
  | r :: rs =>
      let s := t.check r
      (s.2.1, s.2.2) :: runRateChecks s.1 rs

/-- Modelled from the claim: the observable behaviour the spec ascribes to an
enabled MessageRateTrigger.  The previous rate (none before the first call)
determines edges: check returns true exactly when the rate is at least the
threshold, an activation fires exactly on a transition from below threshold
(or from the start) to at-least threshold, a deactivation exactly on the
reverse transition. -/
def claimedRateBehaviour (threshold : ℚ) (prev : Option ℚ) (rates : List ℚ) :
    List (Bool × List TriggerEvent) :=
  match rates with
  | [] => []
  | r :: rs =>
      let wasHigh : Bool := match prev with
        | none => false
        | some p => decide (threshold ≤ p)
      let events : List TriggerEvent :=
        if threshold ≤ r then
          if wasHigh then [] else [TriggerEvent.activation]
        else
          if wasHigh then [TriggerEvent.deactivation] else []
      (decide (threshold ≤ r), events) :: claimedRateBehaviour threshold (some r) rs

theorem runRateChecks_eq_claimed (threshold : ℚ) (rates : List ℚ) :
    ∀ (act : Bool) (prev : Option ℚ),
      (act = match prev with
        | none => false
        | some p => decide (threshold ≤ p)) →
      runRateChecks { threshold := threshold, enabled := true, activated := act } rates
        = claimedRateBehaviour threshold prev rates := by
  induction rates with
  | nil =>
    intro act prev _
    simp [runRateChecks, claimedRateBehaviour]
  | cons r rs ih =>
    intro act prev hact
    by_cases hr : threshold ≤ r
    · have hnext := ih true (some r) (by simp [hr])
      cases act <;>
        simp [runRateChecks, MessageRateTrigger.check, claimedRateBehaviour, hr,
          hnext, ← hact]
    · have hnext := ih false (some r) (by simp [hr])
      cases act <;>
        simp [runRateChecks, MessageRateTrigger.check, claimedRateBehaviour, hr,
          hnext, ← hact]

/-- Claim C4: the auto-detected performance mode is HIGH exactly for 16GB+ of
memory and 8+ cores, LOW exactly when (not HIGH and) memory is below 8GB or
cores below 4, BALANCED otherwise; with the three concrete instances
(16GB, 8 cores) HIGH, (4GB, 2 cores) LOW, (12GB, 6 cores) BALANCED. -/
theorem c4_performance_mode_classification :
    (∀ (m : ℚ) (c : ℕ),
      (autoDetectMode m c = PerformanceMode.HIGH ↔ (16 ≤ m ∧ 8 ≤ c)) ∧
      (autoDetectMode m c = PerformanceMode.LOW ↔
        (¬(16 ≤ m ∧ 8 ≤ c) ∧ (m < 8 ∨ c < 4))) ∧
      (autoDetectMode m c = PerformanceMode.BALANCED ↔
        (¬(16 ≤ m ∧ 8 ≤ c) ∧ ¬(m < 8 ∨ c < 4)))) ∧
    autoDetectMode 16 8 = PerformanceMode.HIGH ∧
    autoDetectMode 4 2 = PerformanceMode.LOW ∧
    autoDetectMode 12 6 = PerformanceMode.BALANCED := by
  refine ⟨fun m c => ?_, by norm_num [autoDetectMode], by norm_num [autoDetectMode],
    by norm_num [autoDetectMode]⟩
  unfold autoDetectMode
  by_cases h1 : 16 ≤ m ∧ 8 ≤ c
  · simp [h1]
  · by_cases h2 : m < 8 ∨ c < 4
    · simp [h1, h2]
    · simp [h1, h2]

/-- Claim C5: for each of the modes HIGH, BALANCED and LOW (and any custom
settings stored in the manager), get_mode_settings returns a table whose keys
are exactly the sixteen keys of spec section 4.2, bound to the literal values
of that table. -/
theorem c5_mode_settings_tables :
    ∀ customSettings : Option (List (String × SettingValue)),
      (getModeSettings customSettings PerformanceMode.HIGH).map Prod.fst
          = specSettingsKeys ∧
      (getModeSettings customSettings PerformanceMode.BALANCED).map Prod.fst
          = specSettingsKeys ∧
      (getModeSettings customSettings PerformanceMode.LOW).map Prod.fst
          = specSettingsKeys ∧
      getModeSettings customSettings PerformanceMode.HIGH = highModeSettings ∧
      getModeSettings customSettings PerformanceMode.BALANCED = balancedModeSettings ∧
      getModeSettings customSettings PerformanceMode.LOW = lowModeSettings ∧
      dictGet highModeSettings "ros2_update_interval" = some (SettingValue.int 1000) ∧
      dictGet highModeSettings "metrics_update_interval" = some (SettingValue.int 250) ∧
      dictGet highModeSettings "max_threads" = some (SettingValue.int 6) ∧
      dictGet highModeSettings "cache_timeout" = some (SettingValue.int 1) ∧
      dictGet highModeSettings "chart_buffer_size" = some (SettingValue.int 120) ∧
      dictGet highModeSettings "chart_auto_pause" = some (SettingValue.bool false) ∧
      dictGet highModeSettings "process_priority" = some (SettingValue.str "normal") ∧
      dictGet highModeSettings "system_metrics_cache" = some (SettingValue.float (1/2)) ∧
      dictGet lowModeSettings "ros2_update_interval" = some (SettingValue.int 5000) ∧
      dictGet lowModeSettings "max_threads" = some (SettingValue.int 2) ∧
      dictGet lowModeSettings "cache_timeout" = some (SettingValue.int 5) ∧
      dictGet lowModeSettings "chart_buffer_size" = some (SettingValue.int 30) ∧
      dictGet lowModeSettings "enable_profiler" = some (SettingValue.bool false) ∧
      dictGet lowModeSettings "process_priority" = some (SettingValue.str "below_normal") ∧
      dictGet balancedModeSettings "ros2_update_interval" = some (SettingValue.int 3000) ∧
      dictGet balancedModeSettings "max_threads" = some (SettingValue.int 3) := by
  intro customSettings
  have hh : getModeSettings customSettings PerformanceMode.HIGH = highModeSettings := rfl
  have hb : getModeSettings customSettings PerformanceMode.BALANCED
      = balancedModeSettings := rfl
  have hl : getModeSettings customSettings PerformanceMode.LOW = lowModeSettings := rfl
  refine ⟨by rw [hh]; decide, by rw [hb]; decide, by rw [hl]; decide, hh, hb, hl, ?_⟩
  repeat' constructor

/-- Claim C6: an enabled MessageRateTrigger with threshold t behaves, over any
sequence of check calls, exactly as the claimed edge-detection semantics: the
result is true exactly when the rate is at least t, activations fire exactly
on upward crossings, deactivations exactly on downward crossings; and the
rate stream 0, 6, 6, 2 against threshold 5 yields exactly one activation and
one deactivation, with no re-firing inside a run. -/
theorem c6_message_rate_trigger_edges :
    (∀ (t : ℚ) (rates : List ℚ),
      runRateChecks (mkMessageRateTrigger t) rates
        = claimedRateBehaviour t none rates) ∧
    runRateChecks (mkMessageRateTrigger 5) [0, 6, 6, 2]
      = [(false, []), (true, [TriggerEvent.activation]), (true, []),
         (false, [TriggerEvent.deactivation])] ∧
    (List.count TriggerEvent.activation
        (List.flatten ((runRateChecks (mkMessageRateTrigger 5) [0, 6, 6, 2]).map
          Prod.snd))) = 1 ∧
    (List.count TriggerEvent.deactivation
        (List.flatten ((runRateChecks (mkMessageRateTrigger 5) [0, 6, 6, 2]).map
          Prod.snd))) = 1 := by
  have hrun : runRateChecks (mkMessageRateTrigger 5) [0, 6, 6, 2]
      = [(false, []), (true, [TriggerEvent.activation]), (true, []),
         (false, [TriggerEvent.deactivation])] := by
    norm_num [runRateChecks, MessageRateTrigger.check, mkMessageRateTrigger]
  refine ⟨fun t rates => ?_, hrun, ?_, ?_⟩
  · exact runRateChecks_eq_claimed t rates false none rfl
  · rw [hrun]; decide
  · rw [hrun]; decide

/-! ## Recording isolation test harness (src/test_recording_isolation.py) -/

/-- Recording health record returned by the facade's get_recording_health. -/
structure RecordingHealth where
  pid : ℕ
  elapsedSeconds : ℚ
  cpuPercent : ℚ
  memoryMb : ℚ
  healthChecks : ℕ
  status : String
  warnings : List String
deriving DecidableEq, Repr

/-- Observations a run of the isolation test makes of its environment: whether
start_recording succeeded, the two health readings taken around the 10 second
freeze, whether psutil.Process(pid) found the process after the freeze, and
whether that process reported is_running(). -/
structure IsolationRun where
  startSuccess : Bool
  healthBefore : Option RecordingHealth
  healthAfter : Option RecordingHealth
  processFound : Bool
  processRunning : Bool
deriving DecidableEq, Repr

/-- Embeds the decision logic of test_recording_isolation: the boolean the
script returns (exit code 0 exactly when it returns true).  The script fails
when recording did not start, when the post-freeze health reading is absent,
when psutil raises NoSuchProcess, or when the process is not running; in every
other case it stops the recording and reports success. -/
def testRecordingIsolation (run : IsolationRun) : Bool :=
  if !run.startSuccess then false
  else
    match run.healthAfter with
    | none => false
    | some _ =>
        if !run.processFound then false
        else if !run.processRunning then false
        else true

/-- Pre-freeze health reading of the C3 counterexample run. -/
def healthReadingBefore : RecordingHealth :=
  { pid := 100, elapsedSeconds := 2, cpuPercent := 10, memoryMb := 50,
    healthChecks := 5, status := "running", warnings := [] }

/-- Post-freeze health reading of the C3 counterexample run: a different
process id and a smaller health-check counter. -/
def healthReadingAfter : RecordingHealth :=
  { pid := 200, elapsedSeconds := 12, cpuPercent := 10, memoryMb := 50,
    healthChecks := 3, status := "running", warnings := [] }

/-- Run in which the recording process was silently replaced during the
freeze: the PID changed between the two health readings and the health-check
counter went backwards, yet the process inspected after the freeze exists and
runs. -/
def isolationCounterexampleRun : IsolationRun :=
  { startSuccess := true,
    healthBefore := some healthReadingBefore,
    healthAfter := some healthReadingAfter,
    processFound := true,
    processRunning := true }

/-- Claim C3 is false as stated: the harness reports success on a run whose
process id changed between the two health readings and whose health-check
counter did not increase, because the script never compares the two readings. -/
theorem c3_counterexample :
    testRecordingIsolation isolationCounterexampleRun = true ∧
    Option.map RecordingHealth.pid isolationCounterexampleRun.healthBefore
      ≠ Option.map RecordingHealth.pid isolationCounterexampleRun.healthAfter ∧
    ¬((Option.map RecordingHealth.healthChecks
          isolationCounterexampleRun.healthBefore).getD 0
        < (Option.map RecordingHealth.healthChecks
          isolationCounterexampleRun.healthAfter).getD 0) := by
  refine ⟨rfl, by decide, by decide⟩

/-- Claim C3, amended: the harness reports success (exit 0) exactly when the
recording started, the post-freeze health reading exists, and host process
inspection finds the recorded process id and reports it running; it performs
no comparison between the first and second health readings, so neither process
id stability nor health-check progress is asserted. -/
theorem c3_isolation_success_condition :
    ∀ run : IsolationRun,
      testRecordingIsolation run = true ↔
        (run.startSuccess = true ∧ run.healthAfter.isSome = true ∧
         run.processFound = true ∧ run.processRunning = true) := by
  intro run
  obtain ⟨s, hb, ha, pf, pr⟩ := run
  cases s <;> cases ha <;> cases pf <;> cases pr <;>
    simp [testRecordingIsolation]

/-! ## Network robot discovery (src/core/network_discovery.py) -/

/-- Discovered ROS2 robot record (the last_seen timestamp is omitted; no
checked claim depends on it). -/
structure ROS2Robot where
  hostname : String
  domainId : ℤ
  nodes : List String
  topics : List String
  services : List String
deriving DecidableEq, Repr

/-- State of a NetworkRobotDiscovery instance together with the
ROS_DOMAIN_ID environment variable it mutates. -/
structure DiscoveryState where
  discoveredRobots : List (String × ROS2Robot)
  currentDomain : ℤ
  envDomainId : String
deriving DecidableEq, Repr

/-- Embeds NetworkRobotDiscovery.set_domain: records the domain and exports it
into the environment. -/
def setDomain (st : DiscoveryState) (domainId : ℤ) : DiscoveryState :=
  { st with currentDomain := domainId, envDomainId := toString domainId }

/-- Python range(a, b) over integers. -/
def pyRange (a b : ℤ) : List ℤ :=
  if h : a < b then a :: pyRange (a + 1) b else []
termination_by (b - a).toNat
decreasing_by simp_wf; omega

theorem mem_pyRange (a b d : ℤ) : d ∈ pyRange a b ↔ a ≤ d ∧ d < b := by
  rw [pyRange]
  split
  · rename_i h
    rw [List.mem_cons, mem_pyRange (a + 1) b d]
    omega
  · rename_i h
    simp only [List.not_mem_nil, false_iff]
    omega
termination_by (b - a).toNat
decreasing_by simp_wf; omega

theorem nodup_pyRange (a b : ℤ) : (pyRange a b).Nodup := by
  rw [pyRange]
  split
  · rename_i h
    refine List.nodup_cons.2 ⟨?_, nodup_pyRange (a + 1) b⟩
    rw [mem_pyRange]
    omega
  · exact List.nodup_nil
termination_by (b - a).toNat
decreasing_by simp_wf; omega

/-- Body of the per-domain loop of scan_domains: switch to the domain, then
probe it with a 2 second timeout; a probe failure or timeout records a node
count of 0 for that domain. -/
def scanStep (probe : ℤ → Option ℕ) (acc : DiscoveryState × List (ℤ × ℕ))
    (domainId : ℤ) : DiscoveryState × List (ℤ × ℕ) :=
  let st1 := setDomain acc.1 domainId
  match probe domainId with
  | some n => (st1, dictSet acc.2 domainId n)
  | none => (st1, dictSet acc.2 domainId 0)

/-- Embeds NetworkRobotDiscovery.scan_domains: sweeps range(start, end+1),
recording a node count per domain, then restores the original domain. -/
def scanDomains (st : DiscoveryState) (probe : ℤ → Option ℕ)
    (startDomain endDomain : ℤ) : DiscoveryState × List (ℤ × ℕ) :=
  let original := st.currentDomain
  let res := (pyRange startDomain (endDomain + 1)).foldl (scanStep probe) (st, [])
  (setDomain res.1 original, res.2)

theorem scanStep_snd (probe : ℤ → Option ℕ) (p : DiscoveryState × List (ℤ × ℕ))
    (x : ℤ) : (scanStep probe p x).2 = dictSet p.2 x ((probe x).getD 0) := by
  unfold scanStep
  cases hpx : probe x <;> simp [hpx]

theorem scanFold_keys (probe : ℤ → Option ℕ) :
    ∀ (l : List ℤ) (p : DiscoveryState × List (ℤ × ℕ)),
      ((p.2.map Prod.fst ++ l).Nodup) →
      ((l.foldl (scanStep probe) p).2).map Prod.fst = p.2.map Prod.fst ++ l := by
  intro l
  induction l with
  | nil => intro p _; simp
  | cons x xs ih =>
    intro p hnd
    have hparts := List.nodup_append.1 hnd
    have hx : x ∉ p.2.map Prod.fst := fun hmem =>
      hparts.2.2 hmem (List.mem_cons_self x xs)
    have hkeys : ((scanStep probe p x).2).map Prod.fst = p.2.map Prod.fst ++ [x] := by
      rw [scanStep_snd]
      exact dictSet_keys_of_not_mem _ _ _ hx
    have hnd2 : (((scanStep probe p x).2).map Prod.fst ++ xs).Nodup := by
      rw [hkeys, List.append_assoc]
      simpa using hnd
    rw [List.foldl_cons, ih _ hnd2, hkeys, List.append_assoc]
    rfl

theorem scanFold_get (probe : ℤ → Option ℕ) :
    ∀ (l : List ℤ) (p : DiscoveryState × List (ℤ × ℕ)),
      ((p.2.map Prod.fst ++ l).Nodup) →
      ∀ d : ℤ,
        dictGet ((l.foldl (scanStep probe) p).2) d
          = if d ∈ l then some ((probe d).getD 0) else dictGet p.2 d := by
  intro l
  induction l with
  | nil => intro p _ d; simp
  | cons x xs ih =>
    intro p hnd d
    have hparts := List.nodup_append.1 hnd
    have hx : x ∉ p.2.map Prod.fst := fun hmem =>
      hparts.2.2 hmem (List.mem_cons_self x xs)
    have hkeys : ((scanStep probe p x).2).map Prod.fst = p.2.map Prod.fst ++ [x] := by
      rw [scanStep_snd]
      exact dictSet_keys_of_not_mem _ _ _ hx
    have hnd2 : (((scanStep probe p x).2).map Prod.fst ++ xs).Nodup := by
      rw [hkeys, List.append_assoc]
      simpa using hnd
    rw [List.foldl_cons, ih _ hnd2 d]
    by_cases hdxs : d ∈ xs
    · simp [hdxs]
    · by_cases hdx : d = x
      · subst hdx
        simp [hdxs, scanStep_snd, dictGet_dictSet_same]
      · have hne : ¬(d ∈ x :: xs) := by
          simp [hdx, hdxs]
        simp only [if_neg hdxs, if_neg hne, scanStep_snd]
        exact dictGet_dictSet_other _ x d _ (Ne.symm hdx)

/-- Claim C9: for start <= end, scan_domains records a node count for exactly
the domain ids in the inclusive interval (the probed count on success, 0 on a
failed probe), and on return current_domain equals its value immediately
before the call, however many probes failed. -/
theorem c9_scan_domains_probes_and_restores :
    ∀ (st : DiscoveryState) (probe : ℤ → Option ℕ) (startDomain endDomain : ℤ),
      startDomain ≤ endDomain →
      (scanDomains st probe startDomain endDomain).1.currentDomain
          = st.currentDomain ∧
      ((scanDomains st probe startDomain endDomain).2.map Prod.fst
          = pyRange startDomain (endDomain + 1)) ∧
      (∀ d : ℤ,
        (d ∈ (scanDomains st probe startDomain endDomain).2.map Prod.fst ↔
          startDomain ≤ d ∧ d ≤ endDomain)) ∧
      (∀ d : ℤ, startDomain ≤ d → d ≤ endDomain →
        dictGet (scanDomains st probe startDomain endDomain).2 d
          = some ((probe d).getD 0)) := by
  intro st probe startDomain endDomain _
  have hnd : ((([] : List (ℤ × ℕ)).map Prod.fst
      ++ pyRange startDomain (endDomain + 1)).Nodup) := by
    simpa using nodup_pyRange startDomain (endDomain + 1)
  have hkeys := scanFold_keys probe (pyRange startDomain (endDomain + 1)) (st, []) hnd
  have hget := scanFold_get probe (pyRange startDomain (endDomain + 1)) (st, []) hnd
  refine ⟨rfl, by simpa using hkeys, ?_, ?_⟩
  · intro d
    have : (scanDomains st probe startDomain endDomain).2.map Prod.fst
        = pyRange startDomain (endDomain + 1) := by simpa using hkeys
    rw [this, mem_pyRange]
    omega
  · intro d hd1 hd2
    have hmem : d ∈ pyRange startDomain (endDomain + 1) := by
      rw [mem_pyRange]
      omega
    have := hget d
    rw [if_pos hmem] at this
    simpa [scanDomains] using this

/-- Discovery state and probe used to witness claim C9 at concrete inputs. -/
def witnessDiscoveryState : DiscoveryState :=
  { discoveredRobots := [], currentDomain := 7, envDomainId := "7" }

/-- Probe for the C9 witness: domain 1 times out, others report two nodes. -/
def witnessProbe (d : ℤ) : Option ℕ :=
  if d = 1 then none else some 2

theorem c9_witness :
    (scanDomains witnessDiscoveryState witnessProbe 0 3).1.currentDomain
        = witnessDiscoveryState.currentDomain ∧
    dictGet (scanDomains witnessDiscoveryState witnessProbe 0 3).2 1 = some 0 ∧
    dictGet (scanDomains witnessDiscoveryState witnessProbe 0 3).2 2 = some 2 := by
  have h := c9_scan_domains_probes_and_restores witnessDiscoveryState witnessProbe 0 3
    (by norm_num)
  refine ⟨h.1, ?_, ?_⟩
  · rw [h.2.2.2 1 (by norm_num) (by norm_num)]
    rfl
  · rw [h.2.2.2 2 (by norm_num) (by norm_num)]
    rfl

/-- ASCII lower-casing of one character, as Char.toLower: basic latin
letters only, which covers ROS2 topic names. -/
def pyCharLower (c : Char) : Char :=
  if 65 <= c.toNat && c.toNat <= 90 then Char.ofNat (c.toNat + 32) else c

/-- Embeds Python str.lower() for the ASCII strings handled here, defined by
structural recursion so that it evaluates inside the kernel. -/
def pyLower (s : String) : String :=
  String.mk (s.data.map pyCharLower)

/-- Python substring containment (the in operator) on character lists. -/
def subList (needle hay : List Char) : Bool :=
  match hay with
  | [] => needle.isEmpty
  | c :: t => needle.isPrefixOf (c :: t) || subList needle t

/-- Python substring containment on strings: pattern in hay. -/
def strContains (hay pat : String) : Bool :=
  subList pat.toList hay.toList

/-- Mutation sensors[key].append(x) on the sensor-category dictionary. -/
def dictAppend (d : List (String × List String)) (k : String) (x : String) :
    List (String × List String) :=
  match d with
  | [] => [(k, [x])]
  | (k1, v1) :: rest =>
      if k1 = k then (k1, v1 ++ [x]) :: rest else (k1, v1) :: dictAppend rest k x

theorem dictAppend_keys_of_mem (d : List (String × List String)) (k x : String)
    (hk : k ∈ d.map Prod.fst) :
    (dictAppend d k x).map Prod.fst = d.map Prod.fst := by
  induction d with
  | nil => simp at hk
  | cons hd tl ih =>
    by_cases h : hd.1 = k
    · simp [dictAppend, h]
    · simp only [List.map_cons, List.mem_cons] at hk
      rcases hk with hk | hk
      · exact absurd hk.symm h
      · simp [dictAppend, h, ih hk]

/-- Sensor-category dictionary as initialized at the top of
get_robot_sensors, in insertion order. -/
def initialSensorCategories : List (String × List String) :=
  [("cameras", []), ("lidars", []), ("imu", []), ("gps", []), ("odometry", []),
   ("joint_states", []), ("tf", []), ("other", [])]

/-- Body of the classification loop of get_robot_sensors: the if/elif chain
appending the topic to the first matching category.  Note that the tf rule
tests the substring "/tf" against the raw topic name, not the lower-cased
one, exactly as the source does. -/
def addTopicToSensors (sensors : List (String × List String)) (topic : String) :
    List (String × List String) :=
  if strContains (pyLower topic) "camera" || strContains (pyLower topic) "image"
      || strContains (pyLower topic) "/rgb" then
    dictAppend sensors "cameras" topic
  else if strContains (pyLower topic) "lidar" || strContains (pyLower topic) "scan"
      || strContains (pyLower topic) "pointcloud" || strContains (pyLower topic) "laser" then
    dictAppend sensors "lidars" topic
  else if strContains (pyLower topic) "imu" then
    dictAppend sensors "imu" topic
  else if strContains (pyLower topic) "gps" || strContains (pyLower topic) "navsat" then
    dictAppend sensors "gps" topic
  else if strContains (pyLower topic) "odom" then
    dictAppend sensors "odometry" topic
  else if strContains (pyLower topic) "joint_state" then
    dictAppend sensors "joint_states" topic
  else if strContains topic "/tf" || strContains (pyLower topic) "transform" then
    dictAppend sensors "tf" topic
  else
    dictAppend sensors "other" topic

/-- Embeds NetworkRobotDiscovery.get_robot_sensors: classifies a discovered
robot's topics and drops the empty categories; an unknown hostname yields the
empty dictionary. -/
def getRobotSensors (discoveredRobots : List (String × ROS2Robot))
    (hostname : String) : List (String × List String) :=
  match dictGet discoveredRobots hostname with
  | none => []
  | some robot =>
      (robot.topics.foldl addTopicToSensors initialSensorCategories).filter
        (fun p => !p.2.isEmpty)

/-- Category assigned to a single topic by the precedence rules of the
amended claim: every pattern is matched against the lower-cased name except
"/tf", which is matched case-sensitively against the raw name. -/
def sensorCategoryOf (topic : String) : String :=
  if strContains (pyLower topic) "camera" || strContains (pyLower topic) "image"
      || strContains (pyLower topic) "/rgb" then "cameras"
  else if strContains (pyLower topic) "lidar" || strContains (pyLower topic) "scan"
      || strContains (pyLower topic) "pointcloud" || strContains (pyLower topic) "laser" then
    "lidars"
  else if strContains (pyLower topic) "imu" then "imu"
  else if strContains (pyLower topic) "gps" || strContains (pyLower topic) "navsat" then
    "gps"
  else if strContains (pyLower topic) "odom" then "odometry"
  else if strContains (pyLower topic) "joint_state" then "joint_states"
  else if strContains topic "/tf" || strContains (pyLower topic) "transform" then "tf"
  else "other"

/-- Modelled from the claim: category assigned to a topic when, as claim C8
words it, every pattern (including "/tf") is matched by substring against the
lower-cased topic name. -/
def claimedLowerSensorCategoryOf (topic : String) : String :=
  if strContains (pyLower topic) "camera" || strContains (pyLower topic) "image"
      || strContains (pyLower topic) "/rgb" then "cameras"
  else if strContains (pyLower topic) "lidar" || strContains (pyLower topic) "scan"
      || strContains (pyLower topic) "pointcloud" || strContains (pyLower topic) "laser" then
    "lidars"
  else if strContains (pyLower topic) "imu" then "imu"
  else if strContains (pyLower topic) "gps" || strContains (pyLower topic) "navsat" then
    "gps"
  else if strContains (pyLower topic) "odom" then "odometry"
  else if strContains (pyLower topic) "joint_state" then "joint_states"
  else if strContains (pyLower topic) "/tf" || strContains (pyLower topic) "transform" then
    "tf"
  else "other"

/-- Modelled from the claim: the classification result as the spec describes
it, namely each fixed category paired with the topics assigned to it by the
per-topic category function, with empty categories omitted. -/
def claimedSensorGrouping (categoryOf : String → String) (topics : List String) :
    List (String × List String) :=
  (["cameras", "lidars", "imu", "gps", "odometry", "joint_states", "tf",
    "other"].map
      (fun c => (c, topics.filter (fun t => categoryOf t = c)))).filter
    (fun p => !p.2.isEmpty)

theorem addTopicToSensors_eq_append (d : List (String × List String))
    (t : String) :
    addTopicToSensors d t = dictAppend d (sensorCategoryOf t) t := by
  unfold addTopicToSensors sensorCategoryOf
  repeat' split
  all_goals rfl

theorem sensorCategoryOf_mem (t : String) :
    sensorCategoryOf t ∈ initialSensorCategories.map Prod.fst := by
  unfold sensorCategoryOf
  repeat' split
  all_goals decide

theorem dictAppend_map_push (cat : String → String) (t : String) (ts : List String) :
    ∀ d : List (String × List String),
      (d.map Prod.fst).Nodup →
      cat t ∈ d.map Prod.fst →
      (dictAppend d (cat t) t).map
          (fun p => (p.1, p.2 ++ ts.filter (fun u => cat u = p.1)))
        = d.map (fun p => (p.1, p.2 ++ (t :: ts).filter (fun u => cat u = p.1))) := by
  intro d
  induction d with
  | nil => intro _ hmem; simp at hmem
  | cons hd tl ih =>
    intro hnd hmem
    obtain ⟨k1, v1⟩ := hd
    simp only [List.map_cons] at hnd
    have hndc := List.nodup_cons.1 hnd
    by_cases hk : k1 = cat t
    · have hfilter : (t :: ts).filter (fun u => decide (cat u = k1))
          = t :: ts.filter (fun u => decide (cat u = k1)) := by
        simp [List.filter_cons, hk.symm]
      have hnotin : ∀ p ∈ tl, cat t ≠ p.1 := by
        intro p hp hcontra
        have : k1 ∈ tl.map Prod.fst := by
          rw [hk, hcontra]
          exact List.mem_map_of_mem Prod.fst hp
        exact hndc.1 this
      simp only [dictAppend, if_pos hk, List.map_cons, hfilter]
      refine congrArg₂ List.cons ?_ ?_
      · simp
      · refine List.map_congr_left ?_
        intro p hp
        have hne : ¬(cat t = p.1) := hnotin p hp
        simp [List.filter_cons, hne]
    · have hmem2 : cat t ∈ tl.map Prod.fst := by
        simp only [List.map_cons, List.mem_cons] at hmem
        rcases hmem with h | h
        · exact absurd h.symm hk
        · exact h
      simp only [dictAppend, if_neg hk, List.map_cons, ih hndc.2 hmem2]
      refine congrArg₂ List.cons ?_ rfl
      have hne : ¬(cat t = k1) := fun h => hk h.symm
      simp [List.filter_cons, hne]

theorem foldl_addTopicToSensors (topics : List String) :
    ∀ d : List (String × List String),
      (d.map Prod.fst).Nodup →
      (∀ t : String, sensorCategoryOf t ∈ d.map Prod.fst) →
      topics.foldl addTopicToSensors d
        = d.map (fun p => (p.1, p.2 ++ topics.filter
            (fun u => sensorCategoryOf u = p.1))) := by
  induction topics with
  | nil =>
    intro d _ _
    simp
  | cons t ts ih =>
    intro d hnd hcat
    have hkeys : (dictAppend d (sensorCategoryOf t) t).map Prod.fst
        = d.map Prod.fst := dictAppend_keys_of_mem d _ t (hcat t)
    rw [List.foldl_cons, addTopicToSensors_eq_append,
      ih (dictAppend d (sensorCategoryOf t) t) (by rw [hkeys]; exact hnd)
        (fun u => by rw [hkeys]; exact hcat u)]
    exact dictAppend_map_push sensorCategoryOf t ts d hnd (hcat t)

/-- Robot record whose only topic is the upper-case "/TF", refuting the
lower-cased matching claimed for the tf category. -/
def tfRobot : ROS2Robot :=
  { hostname := "robot_b", domainId := 0, nodes := [], topics := ["/TF"],
    services := [] }

/-- Discovery table of the C8 counterexample. -/
def tfCounterexampleDiscovery : List (String × ROS2Robot) :=
  [("robot_b", tfRobot)]

/-- Claim C8 is false as stated: the code matches the pattern "/tf" against
the raw topic name, so the topic "/TF" lands in the "other" bucket, whereas
lower-cased matching as claimed would put it in the "tf" bucket. -/
theorem c8_counterexample :
    getRobotSensors tfCounterexampleDiscovery "robot_b" = [("other", ["/TF"])] ∧
    claimedSensorGrouping claimedLowerSensorCategoryOf ["/TF"] = [("tf", ["/TF"])] := by
  constructor
  · decide
  · decide

/-- Robot record of the concrete example in claim C8. -/
def exampleRobot : ROS2Robot :=
  { hostname := "robot_a", domainId := 0, nodes := [],
    topics := ["/front/camera/image_raw", "/imu/data", "/scan", "/tf"],
    services := [] }

/-- Discovery table of the concrete example in claim C8. -/
def exampleDiscovery : List (String × ROS2Robot) :=
  [("robot_a", exampleRobot)]

/-- Claim C8, amended: get_robot_sensors classifies each topic of a known
robot by first-match precedence camera/image//rgb, lidar/scan/pointcloud/laser,
imu, gps/navsat, odom, joint_state, tf, other, matching every pattern against
the lower-cased topic name except "/tf", which is matched case-sensitively
against the raw name; empty categories are omitted.  The concrete example of
the claim classifies to exactly cameras, lidars, imu and tf. -/
theorem c8_sensor_classification :
    (∀ (discoveredRobots : List (String × ROS2Robot)) (hostname : String)
        (robot : ROS2Robot),
      dictGet discoveredRobots hostname = some robot →
      getRobotSensors discoveredRobots hostname
        = claimedSensorGrouping sensorCategoryOf robot.topics) ∧
    getRobotSensors exampleDiscovery "robot_a"
      = [("cameras", ["/front/camera/image_raw"]), ("lidars", ["/scan"]),
         ("imu", ["/imu/data"]), ("tf", ["/tf"])] := by
  constructor
  · intro discoveredRobots hostname robot hfound
    have hunfold : getRobotSensors discoveredRobots hostname
        = (robot.topics.foldl addTopicToSensors initialSensorCategories).filter
            (fun p => !p.2.isEmpty) := by
      unfold getRobotSensors
      rw [hfound]
    rw [hunfold, foldl_addTopicToSensors robot.topics initialSensorCategories
      (by decide) sensorCategoryOf_mem]
    simp [initialSensorCategories, claimedSensorGrouping]
  · decide

theorem c8_witness :
    getRobotSensors exampleDiscovery "robot_a"
      = claimedSensorGrouping sensorCategoryOf exampleRobot.topics :=
  c8_sensor_classification.1 exampleDiscovery "robot_a" exampleRobot rfl

/-! ## Metrics collector (src/core/metrics_collector.py) -/

/-- Python float truthiness for an optional float attribute: None and 0.0 are
falsy. -/
def truthyOptFloat (o : Option ℚ) : Bool :=
  match o with
  | none => false
  | some q => q != 0

/-- Python int() truncation toward zero on a rational. -/
def pyInt (q : ℚ) : ℤ :=
  if q < 0 then -(Int.floor (-q)) else Int.floor q

/-- Disk I/O counters sampled from psutil.disk_io_counters(). -/
structure DiskIOCounters where
  writeBytes : ℚ
deriving DecidableEq, Repr

/-- State of a MetricsCollector instance. -/
structure MetricsCollector where
  startTime : Option ℚ
  lastUpdateTime : Option ℚ
  lastSize : ℚ
  lastDiskIO : Option DiskIOCounters
  systemMetricsCacheTimeout : ℚ
  systemMetricsCache : Option (List (String × ℚ))
  systemMetricsCacheTime : ℚ
  lastDiskCheck : Option ℚ
  lastTopicCheck : Option ℚ
  metrics : List (String × ℚ)
deriving DecidableEq, Repr

/-- Metrics dictionary as initialized by __init__ and reset: the ten keys,
all zero. -/
def initialMetrics : List (String × ℚ) :=
  [("duration", 0), ("size_mb", 0), ("write_speed_mb_s", 0),
   ("message_count", 0), ("topic_count", 0), ("message_rate", 0),
   ("disk_usage_percent", 0), ("cpu_percent", 0), ("memory_percent", 0),
   ("disk_write_speed", 0)]

/-- The ten keys of the metrics snapshot dictionary. -/
def tenMetricKeys : List String :=
  ["duration", "size_mb", "write_speed_mb_s", "message_count", "topic_count",
   "message_rate", "disk_usage_percent", "cpu_percent", "memory_percent",
   "disk_write_speed"]

/-- Keys of the system-metrics cache dictionary. -/
def sysMetricsKeys : List String :=
  ["cpu_percent", "memory_percent", "disk_write_speed"]

/-- Embeds MetricsCollector.__init__ (the _last_disk_check and
_last_topic_check attributes do not exist yet, modelled as none). -/
def MetricsCollector.init : MetricsCollector :=
  { startTime := none, lastUpdateTime := none, lastSize := 0,
    lastDiskIO := none, systemMetricsCacheTimeout := 1,
    systemMetricsCache := none, systemMetricsCacheTime := 0,
    lastDiskCheck := none, lastTopicCheck := none, metrics := initialMetrics }

/-- Embeds MetricsCollector.reset at clock time now. -/
def MetricsCollector.reset (c : MetricsCollector) (now : ℚ) : MetricsCollector :=
  { c with
    startTime := some now, lastUpdateTime := some now, lastSize := 0,
    lastDiskIO := none, metrics := initialMetrics }

/-- System readings consumed by update_system_metrics: the cpu and memory
percentages (0.0 when psutil raised, as the source catches to 0.0), and the
disk_io_counters() outcome — the outer none means psutil raised, the inner
option is the possibly-None value psutil returned. -/
structure SystemProbe where
  cpuPercent : ℚ
  memoryPercent : ℚ
  diskIOCounters : Option (Option DiskIOCounters)
deriving DecidableEq, Repr

/-- Facade readings consumed by update: total capture directory size in bytes
when the bag path exists, the live topic count when get_topics_info succeeds,
the bag_info topic count fallback, and the disk usage percentage. -/
structure RecorderProbe where
  bagSizeBytes : Option ℚ
  topicsCount : Option ℕ
  bagInfoTopicCount : Option ℕ
  diskUsagePercent : Option ℚ
deriving DecidableEq, Repr

/-- Disk write-speed sample of update_system_metrics on its fresh path:
returns the speed (MB per second), the new last_disk_io and the new
_last_disk_check.  The attribute initialization to 0, the 2x-cache-timeout
cadence, the truthiness guard on disk_io/last_disk_io/last_update_time and
the silent exception path are all taken from the source. -/
def freshDiskSample (c : MetricsCollector) (now : ℚ) (sys : SystemProbe) :
    ℚ × Option DiskIOCounters × Option ℚ :=
  let ldc := c.lastDiskCheck.getD 0
  if c.systemMetricsCacheTimeout * 2 < now - ldc then
    match sys.diskIOCounters with
    | some dio =>
        let speed :=
          match dio, c.lastDiskIO, c.lastUpdateTime with
          | some d, some prev, some lt =>
              if lt != 0 && decide (0 < now - lt) then
                ((d.writeBytes - prev.writeBytes) / (now - lt)) / (1024 * 1024)
              else 0
          | _, _, _ => 0
        (speed, dio, some now)
    | none => (0, c.lastDiskIO, some ldc)
  else ((dictGet c.metrics "disk_write_speed").getD 0, c.lastDiskIO, some ldc)

/-- Fresh (non-cached) path of update_system_metrics: reads cpu and memory,
samples disk throughput, writes the three system keys into the metrics
dictionary and refills the system-metrics cache. -/
def MetricsCollector.updateSystemMetricsFresh (c : MetricsCollector) (now : ℚ)
    (sys : SystemProbe) : MetricsCollector :=
  let cpu := sys.cpuPercent
  let mem := sys.memoryPercent
  let s := freshDiskSample c now sys
  { c with
    metrics := dictSet (dictSet (dictSet c.metrics "cpu_percent" cpu)
      "memory_percent" mem) "disk_write_speed" s.1,
    lastDiskIO := s.2.1,
    lastDiskCheck := s.2.2,
    systemMetricsCache := some [("cpu_percent", cpu), ("memory_percent", mem),
      ("disk_write_speed", s.1)],
    systemMetricsCacheTime := now }

/-- Embeds MetricsCollector.update_system_metrics: serves the cached system
values when the cache is younger than the adaptive timeout, otherwise runs
the fresh path. -/
def MetricsCollector.updateSystemMetrics (c : MetricsCollector) (now : ℚ)
    (sys : SystemProbe) : MetricsCollector :=
  match c.systemMetricsCache with
  | some cache =>
      if now - c.systemMetricsCacheTime < c.systemMetricsCacheTimeout then
        { c with metrics := dictMerge c.metrics cache }
      else c.updateSystemMetricsFresh now sys
  | none => c.updateSystemMetricsFresh now sys

/-- Recording part of MetricsCollector.update as a pure function on the
metrics dictionary: duration, then (when the bag path exists) size, write
speed, topic count, estimated message count (1 KB per message) and message
rate, then disk usage. -/
def updateMetricsDict (metrics : List (String × ℚ))
    (startTime lastUpdateTime : Option ℚ) (lastSize now : ℚ)
    (rec : RecorderProbe) : List (String × ℚ) :=
  let m1 := if truthyOptFloat startTime then
      dictSet metrics "duration" (now - startTime.getD 0)
    else metrics
  let mBag :=
    match rec.bagSizeBytes with
    | some sizeBytes =>
        let sizeMb := sizeBytes / (1024 * 1024)
        let m2 := dictSet m1 "size_mb" sizeMb
        let m3 :=
          if truthyOptFloat lastUpdateTime && decide (lastUpdateTime ≠ startTime) then
            if 0 < now - lastUpdateTime.getD 0 then
              dictSet m2 "write_speed_mb_s"
                ((sizeMb - lastSize) / (now - lastUpdateTime.getD 0))
            else m2
          else m2
        let m4 :=
          match rec.topicsCount, rec.bagInfoTopicCount with
          | some n, _ => dictSet m3 "topic_count" (n : ℚ)
          | none, some n => dictSet m3 "topic_count" (n : ℚ)
          | none, none => m3
        let messageCount : ℤ := pyInt (sizeMb * 1024 / 1)
        let m5 := dictSet m4 "message_count" (messageCount : ℚ)
        if 0 < (dictGet m5 "duration").getD 0 then
          dictSet m5 "message_rate"
            ((messageCount : ℚ) / (dictGet m5 "duration").getD 0)
        else m5
    | none => m1
  match rec.diskUsagePercent with
  | some p => dictSet mBag "disk_usage_percent" p
  | none => mBag

/-- Embeds MetricsCollector.update: mutates the metrics dictionary under the
lock (and, when the bag path exists, last_size and last_update_time), then
runs update_system_metrics outside the lock. -/
def MetricsCollector.update (c : MetricsCollector) (now : ℚ)
    (rec : RecorderProbe) (sys : SystemProbe) : MetricsCollector :=
  let m := updateMetricsDict c.metrics c.startTime c.lastUpdateTime c.lastSize now rec
  match rec.bagSizeBytes with
  | some sizeBytes =>
      ({ c with
        metrics := m, lastSize := sizeBytes / (1024 * 1024),
        lastUpdateTime := some now }).updateSystemMetrics now sys
  | none =>
      ({ c with metrics := m }).updateSystemMetrics now sys

/-- Embeds MetricsCollector.get_metrics: refresh system metrics, then return
a defensive copy of the snapshot. -/
def MetricsCollector.getMetrics (c : MetricsCollector) (now : ℚ)
    (sys : SystemProbe) : MetricsCollector × List (String × ℚ) :=
  let c2 := c.updateSystemMetrics now sys
  (c2, c2.metrics)

/-- Embeds MetricsCollector.get_live_metrics: refresh system metrics, then,
when a facade was supplied and the last topic check is more than 3 seconds
old, refresh the topic count (facade is none when no manager was passed; the
inner option is none when get_topics_info raised). -/
def MetricsCollector.getLiveMetrics (c : MetricsCollector) (now : ℚ)
    (sys : SystemProbe) (facade : Option (Option ℕ)) :
    MetricsCollector × List (String × ℚ) :=
  let c2 := c.updateSystemMetrics now sys
  match facade with
  | none => (c2, c2.metrics)
  | some topicsResult =>
      let ltc := c2.lastTopicCheck.getD 0
      let c3 := { c2 with lastTopicCheck := some ltc }
      if 3 < now - ltc then
        match topicsResult with
        | some n =>
            let c4 := { c3 with
              metrics := dictSet c3.metrics "topic_count" (n : ℚ),
              lastTopicCheck := some now }
            (c4, c4.metrics)
        | none => (c3, c3.metrics)
      else (c3, c3.metrics)

/-- Shape invariant of claim C10: the metrics dictionary holds exactly the
ten snapshot keys, and the system-metrics cache, when filled, holds exactly
the three system keys. -/
def MetricsShapeInv (c : MetricsCollector) : Prop :=
  c.metrics.map Prod.fst = tenMetricKeys ∧
  ∀ cache, c.systemMetricsCache = some cache → cache.map Prod.fst = sysMetricsKeys

theorem dictSet_keys_eq {κ α : Type} [DecidableEq κ]
    (d : List (κ × α)) (k : κ) (v : α) (L : List κ)
    (hd : d.map Prod.fst = L) (hk : k ∈ L) :
    (dictSet d k v).map Prod.fst = L := by
  rw [dictSet_keys_of_mem d k v (by rw [hd]; exact hk)]
  exact hd

theorem dictMerge_keys {κ α : Type} [DecidableEq κ] :
    ∀ (other d : List (κ × α)),
      (∀ k ∈ other.map Prod.fst, k ∈ d.map Prod.fst) →
      (dictMerge d other).map Prod.fst = d.map Prod.fst := by
  intro other
  induction other with
  | nil => intro d _; rfl
  | cons hd tl ih =>
    intro d hsub
    have hmem : hd.1 ∈ d.map Prod.fst := hsub hd.1 (by simp)
    have hkeys := dictSet_keys_of_mem d hd.1 hd.2 hmem
    have : dictMerge d (hd :: tl) = dictMerge (dictSet d hd.1 hd.2) tl := rfl
    rw [this, ih (dictSet d hd.1 hd.2) (fun k hk => by
      rw [hkeys]
      exact hsub k (by simp [hk])), hkeys]

theorem dictMerge_get_not_mem {κ α : Type} [DecidableEq κ] :
    ∀ (other d : List (κ × α)) (k : κ),
      k ∉ other.map Prod.fst →
      dictGet (dictMerge d other) k = dictGet d k := by
  intro other
  induction other with
  | nil => intro d k _; rfl
  | cons hd tl ih =>
    intro d k hk
    simp only [List.map_cons, List.mem_cons] at hk
    push_neg at hk
    have : dictMerge d (hd :: tl) = dictMerge (dictSet d hd.1 hd.2) tl := rfl
    rw [this, ih (dictSet d hd.1 hd.2) k hk.2,
      dictGet_dictSet_other d hd.1 k hd.2 (Ne.symm hk.1)]

theorem updateMetricsDict_keys (metrics : List (String × ℚ))
    (st lu : Option ℚ) (ls now : ℚ) (rec : RecorderProbe)
    (h : metrics.map Prod.fst = tenMetricKeys) :
    (updateMetricsDict metrics st lu ls now rec).map Prod.fst = tenMetricKeys := by
  simp only [updateMetricsDict]
  repeat' split
  all_goals
    repeat
      first
      | exact h
      | refine dictSet_keys_eq _ _ _ _ ?_ (by decide)

theorem updateSystemMetricsFresh_inv (c : MetricsCollector) (now : ℚ)
    (sys : SystemProbe) (h : MetricsShapeInv c) :
    MetricsShapeInv (c.updateSystemMetricsFresh now sys) := by
  obtain ⟨hkeys, _⟩ := h
  constructor
  · show (dictSet (dictSet (dictSet c.metrics "cpu_percent" sys.cpuPercent)
      "memory_percent" sys.memoryPercent) "disk_write_speed"
        (freshDiskSample c now sys).1).map Prod.fst = tenMetricKeys
    refine dictSet_keys_eq _ _ _ _ ?_ (by decide)
    refine dictSet_keys_eq _ _ _ _ ?_ (by decide)
    exact dictSet_keys_eq _ _ _ _ hkeys (by decide)
  · intro cache hc
    simp only [MetricsCollector.updateSystemMetricsFresh, Option.some.injEq] at hc
    rw [← hc]
    rfl

theorem updateSystemMetrics_inv (c : MetricsCollector) (now : ℚ)
    (sys : SystemProbe) (h : MetricsShapeInv c) :
    MetricsShapeInv (c.updateSystemMetrics now sys) := by
  obtain ⟨hkeys, hcache⟩ := h
  rcases hc : c.systemMetricsCache with _ | cache
  · unfold MetricsCollector.updateSystemMetrics
    rw [hc]
    exact updateSystemMetricsFresh_inv c now sys ⟨hkeys, hcache⟩
  · unfold MetricsCollector.updateSystemMetrics
    rw [hc]
    show MetricsShapeInv
      (if now - c.systemMetricsCacheTime < c.systemMetricsCacheTimeout then
        { c with
          systemMetricsCache := some cache,
          metrics := dictMerge c.metrics cache }
      else c.updateSystemMetricsFresh now sys)
    split
    · have hsub : ∀ k ∈ cache.map Prod.fst, k ∈ c.metrics.map Prod.fst := by
        intro k hk
        rw [hcache cache hc] at hk
        rw [hkeys]
        simp only [sysMetricsKeys, List.mem_cons, List.not_mem_nil, or_false] at hk
        rcases hk with rfl | rfl | rfl <;> decide
      constructor
      · show (dictMerge c.metrics cache).map Prod.fst = tenMetricKeys
        rw [dictMerge_keys cache c.metrics hsub, hkeys]
      · intro cache2 hc2
        have hcc : cache = cache2 := by
          simpa using hc2
        rw [← hcc]
        exact hcache cache hc
    · exact updateSystemMetricsFresh_inv c now sys ⟨hkeys, hcache⟩

theorem update_inv (c : MetricsCollector) (now : ℚ) (rec : RecorderProbe)
    (sys : SystemProbe) (h : MetricsShapeInv c) :
    MetricsShapeInv (c.update now rec sys) := by
  obtain ⟨hkeys, hcache⟩ := h
  have hm := updateMetricsDict_keys c.metrics c.startTime c.lastUpdateTime
    c.lastSize now rec hkeys
  unfold MetricsCollector.update
  cases hb : rec.bagSizeBytes
  · simp only
    exact updateSystemMetrics_inv _ now sys ⟨hm, hcache⟩
  · simp only
    exact updateSystemMetrics_inv _ now sys ⟨hm, hcache⟩

theorem getMetrics_inv (c : MetricsCollector) (now : ℚ) (sys : SystemProbe)
    (h : MetricsShapeInv c) :
    MetricsShapeInv (c.getMetrics now sys).1 ∧
      (c.getMetrics now sys).2.map Prod.fst = tenMetricKeys := by
  have h2 := updateSystemMetrics_inv c now sys h
  exact ⟨h2, h2.1⟩

theorem getLiveMetrics_inv (c : MetricsCollector) (now : ℚ) (sys : SystemProbe)
    (facade : Option (Option ℕ)) (h : MetricsShapeInv c) :
    MetricsShapeInv (c.getLiveMetrics now sys facade).1 ∧
      (c.getLiveMetrics now sys facade).2.map Prod.fst = tenMetricKeys := by
  have h2 := updateSystemMetrics_inv c now sys h
  obtain ⟨hkeys2, hcache2⟩ := h2
  unfold MetricsCollector.getLiveMetrics
  cases facade with
  | none => exact ⟨⟨hkeys2, hcache2⟩, hkeys2⟩
  | some topicsResult =>
    simp only
    split
    · cases topicsResult with
      | some n =>
        simp only
        refine ⟨⟨?_, hcache2⟩, ?_⟩ <;>
          exact dictSet_keys_eq _ _ _ _ hkeys2 (by decide)
      | none => exact ⟨⟨hkeys2, hcache2⟩, hkeys2⟩
    · cases topicsResult with
      | some n => exact ⟨⟨hkeys2, hcache2⟩, hkeys2⟩
      | none => exact ⟨⟨hkeys2, hcache2⟩, hkeys2⟩

/-- Claim C10: construction establishes, and reset, update,
update_system_metrics, get_metrics and get_live_metrics preserve, the
snapshot-shape invariant: the metrics dictionary holds exactly the ten keys
duration, size_mb, write_speed_mb_s, message_count, topic_count,
message_rate, disk_usage_percent, cpu_percent, memory_percent,
disk_write_speed; and the copies returned by the two getters hold exactly
those ten keys. -/
theorem c10_metrics_snapshot_shape :
    MetricsShapeInv MetricsCollector.init ∧
    MetricsCollector.init.metrics.map Prod.fst = tenMetricKeys ∧
    (∀ (c : MetricsCollector) (now : ℚ),
      MetricsShapeInv c → MetricsShapeInv (c.reset now) ∧
        (c.reset now).metrics.map Prod.fst = tenMetricKeys) ∧
    (∀ (c : MetricsCollector) (now : ℚ) (rec : RecorderProbe) (sys : SystemProbe),
      MetricsShapeInv c → MetricsShapeInv (c.update now rec sys) ∧
        (c.update now rec sys).metrics.map Prod.fst = tenMetricKeys) ∧
    (∀ (c : MetricsCollector) (now : ℚ) (sys : SystemProbe),
      MetricsShapeInv c → MetricsShapeInv (c.updateSystemMetrics now sys) ∧
        (c.updateSystemMetrics now sys).metrics.map Prod.fst = tenMetricKeys) ∧
    (∀ (c : MetricsCollector) (now : ℚ) (sys : SystemProbe),
      MetricsShapeInv c → MetricsShapeInv (c.getMetrics now sys).1 ∧
        (c.getMetrics now sys).2.map Prod.fst = tenMetricKeys) ∧
    (∀ (c : MetricsCollector) (now : ℚ) (sys : SystemProbe)
        (facade : Option (Option ℕ)),
      MetricsShapeInv c → MetricsShapeInv (c.getLiveMetrics now sys facade).1 ∧
        (c.getLiveMetrics now sys facade).2.map Prod.fst = tenMetricKeys) := by
  have hinit : MetricsShapeInv MetricsCollector.init := by
    constructor
    · decide
    · intro cache hc
      simp [MetricsCollector.init] at hc
  refine ⟨hinit, by decide, ?_, ?_, ?_, ?_, ?_⟩
  · intro c now h
    obtain ⟨_, hcache⟩ := h
    have hres : (c.reset now).metrics.map Prod.fst = tenMetricKeys := by
      show initialMetrics.map Prod.fst = tenMetricKeys
      decide
    exact ⟨⟨hres, hcache⟩, hres⟩
  · intro c now rec sys h
    have h2 := update_inv c now rec sys h
    exact ⟨h2, h2.1⟩
  · intro c now sys h
    have h2 := updateSystemMetrics_inv c now sys h
    exact ⟨h2, h2.1⟩
  · intro c now sys h
    exact getMetrics_inv c now sys h
  · intro c now sys facade h
    exact getLiveMetrics_inv c now sys facade h

/-- Probe values used by the C7 and C10 witnesses: psutil readings of zero
and a failed disk_io_counters call. -/
def witnessSystemProbe : SystemProbe :=
  { cpuPercent := 0, memoryPercent := 0, diskIOCounters := none }

theorem c10_witness :
    MetricsShapeInv (MetricsCollector.init.reset 1) ∧
    ((MetricsCollector.init.getMetrics 1 witnessSystemProbe).2.map Prod.fst
      = tenMetricKeys) := by
  have h := c10_metrics_snapshot_shape
  exact ⟨(h.2.2.1 MetricsCollector.init 1 h.1).1,
    (h.2.2.2.2.2.1 MetricsCollector.init 1 witnessSystemProbe h.1).2⟩

theorem updateSystemMetricsFresh_get_other (c : MetricsCollector) (now : ℚ)
    (sys : SystemProbe) (k : String)
    (hk1 : k ≠ "cpu_percent") (hk2 : k ≠ "memory_percent")
    (hk3 : k ≠ "disk_write_speed") :
    dictGet (c.updateSystemMetricsFresh now sys).metrics k = dictGet c.metrics k := by
  show dictGet (dictSet (dictSet (dictSet c.metrics "cpu_percent" sys.cpuPercent)
    "memory_percent" sys.memoryPercent) "disk_write_speed"
      (freshDiskSample c now sys).1) k = dictGet c.metrics k
  rw [dictGet_dictSet_other _ _ _ _ (Ne.symm hk3),
    dictGet_dictSet_other _ _ _ _ (Ne.symm hk2),
    dictGet_dictSet_other _ _ _ _ (Ne.symm hk1)]

theorem updateSystemMetrics_get_other (c : MetricsCollector) (now : ℚ)
    (sys : SystemProbe) (k : String)
    (hcache : ∀ cache, c.systemMetricsCache = some cache →
      cache.map Prod.fst = sysMetricsKeys)
    (hk1 : k ≠ "cpu_percent") (hk2 : k ≠ "memory_percent")
    (hk3 : k ≠ "disk_write_speed") :
    dictGet (c.updateSystemMetrics now sys).metrics k = dictGet c.metrics k := by
  rcases hc : c.systemMetricsCache with _ | cache
  · unfold MetricsCollector.updateSystemMetrics
    rw [hc]
    exact updateSystemMetricsFresh_get_other c now sys k hk1 hk2 hk3
  · unfold MetricsCollector.updateSystemMetrics
    rw [hc]
    show dictGet
      (if now - c.systemMetricsCacheTime < c.systemMetricsCacheTimeout then
        { c with
          systemMetricsCache := some cache,
          metrics := dictMerge c.metrics cache }
      else c.updateSystemMetricsFresh now sys).metrics k = dictGet c.metrics k
    split
    · show dictGet (dictMerge c.metrics cache) k = dictGet c.metrics k
      refine dictMerge_get_not_mem cache c.metrics k ?_
      rw [hcache cache hc]
      simp [sysMetricsKeys, hk1, hk2, hk3]
    · exact updateSystemMetricsFresh_get_other c now sys k hk1 hk2 hk3

theorem updateSystemMetrics_fields (c : MetricsCollector) (now : ℚ)
    (sys : SystemProbe) :
    (c.updateSystemMetrics now sys).startTime = c.startTime ∧
    (c.updateSystemMetrics now sys).lastUpdateTime = c.lastUpdateTime ∧
    (c.updateSystemMetrics now sys).lastSize = c.lastSize := by
  rcases hc : c.systemMetricsCache with _ | cache
  · unfold MetricsCollector.updateSystemMetrics
    rw [hc]
    exact ⟨rfl, rfl, rfl⟩
  · unfold MetricsCollector.updateSystemMetrics
    rw [hc]
    show ((if now - c.systemMetricsCacheTime < c.systemMetricsCacheTimeout then
        { c with
          systemMetricsCache := some cache,
          metrics := dictMerge c.metrics cache }
      else c.updateSystemMetricsFresh now sys).startTime = c.startTime) ∧ _ ∧ _
    split
    · exact ⟨rfl, rfl, rfl⟩
    · exact ⟨rfl, rfl, rfl⟩

theorem update_fields (c : MetricsCollector) (now : ℚ) (rec : RecorderProbe)
    (sys : SystemProbe) (sz : ℚ) (hbag : rec.bagSizeBytes = some sz) :
    (c.update now rec sys).startTime = c.startTime ∧
    (c.update now rec sys).lastUpdateTime = some now ∧
    (c.update now rec sys).lastSize = sz / (1024 * 1024) := by
  unfold MetricsCollector.update
  rw [hbag]
  refine ⟨?_, ?_, ?_⟩
  · exact (updateSystemMetrics_fields _ now sys).1
  · exact (updateSystemMetrics_fields _ now sys).2.1
  · exact (updateSystemMetrics_fields _ now sys).2.2

theorem update_get_other (c : MetricsCollector) (now : ℚ) (rec : RecorderProbe)
    (sys : SystemProbe) (k : String)
    (hcache : ∀ cache, c.systemMetricsCache = some cache →
      cache.map Prod.fst = sysMetricsKeys)
    (hk1 : k ≠ "cpu_percent") (hk2 : k ≠ "memory_percent")
    (hk3 : k ≠ "disk_write_speed") :
    dictGet (c.update now rec sys).metrics k
      = dictGet (updateMetricsDict c.metrics c.startTime c.lastUpdateTime
          c.lastSize now rec) k := by
  unfold MetricsCollector.update
  cases hb : rec.bagSizeBytes
  · exact updateSystemMetrics_get_other _ now sys k hcache hk1 hk2 hk3
  · exact updateSystemMetrics_get_other _ now sys k hcache hk1 hk2 hk3

theorem updateMetricsDict_recording_lookups
    (M : List (String × ℚ)) (t0 t1 t2 sz : ℚ) (rec : RecorderProbe)
    (h0 : t0 ≠ 0) (h1 : t1 ≠ 0) (hne : t1 ≠ t0)
    (hd1 : 0 < t2 - t1) (hd0 : 0 < t2 - t0)
    (hbag : rec.bagSizeBytes = some sz) :
    dictGet (updateMetricsDict M (some t0) (some t1) 0 t2 rec) "write_speed_mb_s"
        = some ((sz / (1024 * 1024) - 0) / (t2 - t1)) ∧
    dictGet (updateMetricsDict M (some t0) (some t1) 0 t2 rec) "message_count"
        = some ((pyInt (sz / (1024 * 1024) * 1024 / 1) : ℤ) : ℚ) ∧
    dictGet (updateMetricsDict M (some t0) (some t1) 0 t2 rec) "message_rate"
        = some (((pyInt (sz / (1024 * 1024) * 1024 / 1) : ℤ) : ℚ) / (t2 - t0)) := by
  have htr0 : truthyOptFloat (some t0) = true := by
    simp [truthyOptFloat, h0]
  have htr1 : (truthyOptFloat (some t1)
      && decide ((some t1 : Option ℚ) ≠ some t0)) = true := by
    simp [truthyOptFloat, h1, hne]
  unfold updateMetricsDict
  simp only [hbag, htr0, htr1, Option.getD_some, eq_self_iff_true, if_true,
    if_pos hd1]
  rcases htc : rec.topicsCount with _ | n <;>
    rcases hbi : rec.bagInfoTopicCount with _ | nb <;>
    rcases hdu : rec.diskUsagePercent with _ | p <;>
    simp only [htc, hbi, hdu] <;>
    rw [if_pos (by simpa [dictGet_dictSet_other, dictGet_dictSet_same] using hd0)] <;>
    refine ⟨?_, ?_, ?_⟩ <;>
    simp [dictGet_dictSet_other, dictGet_dictSet_same]

/-- Claim C7: after reset at a positive time t0, an update at time t1 with a
capture size of 0 MB and another at t2 = t1 + 5 with a capture size of 10 MB
leave write_speed_mb_s = (10-0)/5 = 2 MB/s, message_count = 10*1024/1 = 10240
using the fixed 1 KB-per-message estimate, and message_rate = message_count
divided by the recording duration. -/
theorem c7_metrics_accounting (t0 t1 t2 : ℚ) (rec1 rec2 : RecorderProbe)
    (sys1 sys2 : SystemProbe)
    (h0 : 0 < t0) (h01 : t0 < t1) (h2 : t2 = t1 + 5)
    (hrec1 : rec1.bagSizeBytes = some 0)
    (hrec2 : rec2.bagSizeBytes = some (10 * 1024 * 1024)) :
    dictGet (((MetricsCollector.init.reset t0).update t1 rec1 sys1).update
        t2 rec2 sys2).metrics "write_speed_mb_s" = some 2 ∧
    dictGet (((MetricsCollector.init.reset t0).update t1 rec1 sys1).update
        t2 rec2 sys2).metrics "message_count" = some 10240 ∧
    dictGet (((MetricsCollector.init.reset t0).update t1 rec1 sys1).update
        t2 rec2 sys2).metrics "message_rate" = some (10240 / (t2 - t0)) := by
  have hc0inv : MetricsShapeInv (MetricsCollector.init.reset t0) := by
    constructor
    · show initialMetrics.map Prod.fst = tenMetricKeys
      decide
    · intro cache hc
      exact Option.noConfusion hc
  have hc1inv : MetricsShapeInv ((MetricsCollector.init.reset t0).update t1 rec1 sys1) :=
    update_inv _ t1 rec1 sys1 hc0inv
  have hf1 := update_fields (MetricsCollector.init.reset t0) t1 rec1 sys1 0 hrec1
  have hst1 : ((MetricsCollector.init.reset t0).update t1 rec1 sys1).startTime
      = some t0 := by
    rw [hf1.1]
    rfl
  have hlu1 : ((MetricsCollector.init.reset t0).update t1 rec1 sys1).lastUpdateTime
      = some t1 := hf1.2.1
  have hls1 : ((MetricsCollector.init.reset t0).update t1 rec1 sys1).lastSize
      = 0 := by
    rw [hf1.2.2]
    norm_num
  have hlook := updateMetricsDict_recording_lookups
    ((MetricsCollector.init.reset t0).update t1 rec1 sys1).metrics t0 t1 t2
    (10 * 1024 * 1024) rec2
    (ne_of_gt h0) (ne_of_gt (h0.trans h01)) (ne_of_gt h01)
    (by rw [h2]; norm_num) (by rw [h2]; linarith) hrec2
  have hget : ∀ k, k ≠ "cpu_percent" → k ≠ "memory_percent" →
      k ≠ "disk_write_speed" →
      dictGet ((((MetricsCollector.init.reset t0).update t1 rec1 sys1).update
          t2 rec2 sys2).metrics) k
        = dictGet (updateMetricsDict
            ((MetricsCollector.init.reset t0).update t1 rec1 sys1).metrics
            (some t0) (some t1) 0 t2 rec2) k := by
    intro k hk1 hk2 hk3
    rw [update_get_other _ t2 rec2 sys2 k hc1inv.2 hk1 hk2 hk3, hst1, hlu1, hls1]
  have hsz : ((10 * 1024 * 1024 : ℚ) / (1024 * 1024) - 0) / (t2 - t1) = 2 := by
    rw [h2]
    norm_num
  have hcount : ((pyInt ((10 * 1024 * 1024 : ℚ) / (1024 * 1024) * 1024 / 1) : ℤ) : ℚ)
      = 10240 := by
    norm_num [pyInt]
  refine ⟨?_, ?_, ?_⟩
  · rw [hget "write_speed_mb_s" (by decide) (by decide) (by decide), hlook.1, hsz]
  · rw [hget "message_count" (by decide) (by decide) (by decide), hlook.2.1, hcount]
  · rw [hget "message_rate" (by decide) (by decide) (by decide), hlook.2.2, hcount]

/-- Recorder probe of the C7 witness before any data was captured. -/
def witnessRecorderProbeEmpty : RecorderProbe :=
  { bagSizeBytes := some 0, topicsCount := none, bagInfoTopicCount := none,
    diskUsagePercent := none }

/-- Recorder probe of the C7 witness after 10 MB were captured. -/
def witnessRecorderProbeFull : RecorderProbe :=
  { bagSizeBytes := some (10 * 1024 * 1024), topicsCount := none,
    bagInfoTopicCount := none, diskUsagePercent := none }

theorem c7_witness :
    dictGet (((MetricsCollector.init.reset 1).update 2 witnessRecorderProbeEmpty
        witnessSystemProbe).update 7 witnessRecorderProbeFull
        witnessSystemProbe).metrics "write_speed_mb_s" = some 2 ∧
    dictGet (((MetricsCollector.init.reset 1).update 2 witnessRecorderProbeEmpty
        witnessSystemProbe).update 7 witnessRecorderProbeFull
        witnessSystemProbe).metrics "message_count" = some 10240 := by
  have h := c7_metrics_accounting 1 2 7 witnessRecorderProbeEmpty
    witnessRecorderProbeFull witnessSystemProbe witnessSystemProbe
    (by norm_num) (by norm_num) (by norm_num) rfl rfl
  exact ⟨h.1, h.2.1⟩

/-! ## Upload server (src/upload_server.py) -/

/-- Upload session as stored in the upload_sessions dictionary (the metadata
map, creation timestamp and the derivable temp_dir path are omitted; no
checked claim depends on them). -/
structure UploadSession where
  filename : String
  filesize : ℤ
  chunks : ℕ
  checksum : Option String
  receivedChunks : List ℕ
deriving DecidableEq, Repr

/-- Observable server state: the in-memory session map, the per-session temp
directories with their chunk files (an entry present means the directory
exists; chunk_<i> files are keyed by i), the completed-uploads directory,
and the .metadata.json sidecars (storing the recorded checksum). -/
structure UploadServerState where
  uploadSessions : List (String × UploadSession)
  tempFS : List (String × List (ℕ × List ℕ))
  completedFiles : List (String × List ℕ)
  metadataFiles : List (String × String)
deriving DecidableEq, Repr

/-- HTTP response abstraction: status code, success flag and error message. -/
structure HttpResponse where
  code : ℕ
  success : Bool
  error : Option String
deriving DecidableEq, Repr

/-- A 200 response with success true. -/
def okResponse : HttpResponse :=
  { code := 200, success := true, error := none }

/-- An error response with success false. -/
def errorResponse (code : ℕ) (msg : String) : HttpResponse :=
  { code := code, success := false, error := some msg }

/-- Python truthiness of the optional checksum string in finalize_upload:
None and the empty string are falsy, so they skip verification. -/
def checksumTruthy (c : Option String) : Bool :=
  match c with
  | none => false
  | some s => s != ""

/-- Embeds the /upload/init handler: creates a session with an empty
received-chunks set and makes the per-session temp directory
(exist_ok=True keeps an existing directory and its contents). -/
def initializeUpload (st : UploadServerState) (uploadId filename : String)
    (filesize : ℤ) (chunks : ℕ) (checksum : Option String) :
    UploadServerState × HttpResponse :=
  let session : UploadSession :=
    { filename := filename, filesize := filesize, chunks := chunks,
      checksum := checksum, receivedChunks := [] }
  let tempFS2 :=
    match dictGet st.tempFS uploadId with
    | some _ => st.tempFS
    | none => dictSet st.tempFS uploadId []
  ({ st with
      uploadSessions := dictSet st.uploadSessions uploadId session,
      tempFS := tempFS2 }, okResponse)

/-- Embeds the /upload/chunk handler: 400 on an unknown upload id or missing
chunk data; otherwise saves the chunk file (overwriting any previous chunk of
the same index) and adds the index to the received set.  A missing temp
directory makes the save raise, caught as a 500 with no state change; a
chunk_total of 0 makes the progress computation divide by zero after the
state was already mutated, caught as a 500. -/
def uploadChunk (st : UploadServerState) (uploadId : String)
    (chunkIndex chunkTotal : ℕ) (chunkData : Option (List ℕ)) :
    UploadServerState × HttpResponse :=
  match dictGet st.uploadSessions uploadId with
  | none => (st, errorResponse 400 "Invalid upload ID")
  | some session =>
      match chunkData with
      | none => (st, errorResponse 400 "No chunk data")
      | some bytes =>
          match dictGet st.tempFS uploadId with
          | none => (st, errorResponse 500 "temp directory missing")
          | some files =>
              let files2 := dictSet files chunkIndex bytes
              let received2 :=
                if chunkIndex ∈ session.receivedChunks then session.receivedChunks
                else session.receivedChunks ++ [chunkIndex]
              let st2 := { st with
                tempFS := dictSet st.tempFS uploadId files2,
                uploadSessions := dictSet st.uploadSessions uploadId
                  { session with receivedChunks := received2 } }
              if chunkTotal = 0 then (st2, errorResponse 500 "division by zero")
              else (st2, okResponse)

/-- Sequential read of chunk files chunk_0 .. chunk_(n-1), as the combine
loop of finalize_upload writes them into the output file: returns the bytes
written so far and whether every chunk file was found (a missing chunk file
aborts the loop with the output partially written). -/
def readChunks (files : List (ℕ × List ℕ)) : ℕ → List ℕ × Bool
  | 0 => ([], true)
  | n + 1 =>
      let prev := readChunks files n
      if prev.2 then
        match dictGet files n with
        | some bytes => (prev.1 ++ bytes, true)
        | none => (prev.1, false)
      else prev

/-- The temp-file cleanup loop of finalize_upload: removes chunk_i for every
i below n that exists. -/
def removeChunks (files : List (ℕ × List ℕ)) : ℕ → List (ℕ × List ℕ)
  | 0 => files
  | n + 1 =>
      let f2 := removeChunks files n
      if (dictGet f2 n).isSome then dictDel f2 n else f2

/-- Embeds the /upload/finalize handler, parameterized by the checksum
function (MD5 in the source).  400 on unknown id; 400 leaving the state
unchanged when the received-chunk count differs from the declared count;
otherwise the chunks are concatenated into the completed-uploads directory
under the declared filename (a missing chunk file leaves the partially
written output and returns 500); a truthy request checksum differing from
the computed one deletes the output and returns 400; otherwise the temp
chunk files, the temp directory and the session are removed, the metadata
sidecar is written, and 200 is returned. -/
def finalizeUpload (md5 : List ℕ → String) (st : UploadServerState)
    (uploadId : String) (checksum : Option String) :
    UploadServerState × HttpResponse :=
  match dictGet st.uploadSessions uploadId with
  | none => (st, errorResponse 400 "Invalid upload ID")
  | some session =>
      if session.receivedChunks.length ≠ session.chunks then
        (st, errorResponse 400 ("Missing chunks: "
          ++ toString session.receivedChunks.length ++ "/"
          ++ toString session.chunks))
      else
        let files := (dictGet st.tempFS uploadId).getD []
        let combined := readChunks files session.chunks
        let stWritten := { st with
          completedFiles := dictSet st.completedFiles session.filename combined.1 }
        if !combined.2 then
          (stWritten, errorResponse 500 "chunk file missing")
        else
          let calculated := md5 combined.1
          if checksumTruthy checksum && decide (calculated ≠ checksum.getD "") then
            ({ stWritten with
                completedFiles := dictDel stWritten.completedFiles session.filename },
              errorResponse 400 "Checksum mismatch")
          else
            let files2 := removeChunks files session.chunks
            if !files2.isEmpty then
              ({ stWritten with
                  tempFS := dictSet stWritten.tempFS uploadId files2 },
                errorResponse 500 "temp directory not empty")
            else
              ({ stWritten with
                  tempFS := dictDel stWritten.tempFS uploadId,
                  metadataFiles := dictSet stWritten.metadataFiles
                    (session.filename ++ ".metadata.json") calculated,
                  uploadSessions := dictDel stWritten.uploadSessions uploadId },
                okResponse)

/-- Uploads the listed chunk indices in the given order, each carrying its
payload from the payloads list, against a fixed declared chunk total. -/
def uploadAll (st : UploadServerState) (uploadId : String) (total : ℕ)
    (payloads : List (List ℕ)) (order : List ℕ) : UploadServerState :=
  order.foldl
    (fun s i => (uploadChunk s uploadId i total (some (payloads.getD i []))).1) st

/-- Temp directory contents after uploading the chunks listed in p. -/
def buildChunkFiles (payloads : List (List ℕ)) (p : List ℕ) :
    List (ℕ × List ℕ) :=
  p.foldl (fun f i => dictSet f i (payloads.getD i [])) []

theorem dictDel_get_other {κ α : Type} [DecidableEq κ]
    (d : List (κ × α)) (k k2 : κ) (hne : k ≠ k2) :
    dictGet (dictDel d k) k2 = dictGet d k2 := by
  induction d with
  | nil => rfl
  | cons hd tl ih =>
    by_cases h : hd.1 = k
    · have hne2 : hd.1 ≠ k2 := by
        rw [h]
        exact hne
      simp only [dictDel, if_pos h, dictGet, if_neg hne2]
    · simp only [dictDel, if_neg h, dictGet, ih]

theorem dictDel_get_self {κ α : Type} [DecidableEq κ]
    (d : List (κ × α)) (k : κ) (hnd : (d.map Prod.fst).Nodup) :
    dictGet (dictDel d k) k = none := by
  induction d with
  | nil => rfl
  | cons hd tl ih =>
    simp only [List.map_cons] at hnd
    have hndc := List.nodup_cons.1 hnd
    by_cases h : hd.1 = k
    · simp only [dictDel, if_pos h]
      refine dictGet_eq_none_of_not_mem_keys tl k ?_
      rw [← h]
      exact hndc.1
    · simp only [dictDel, if_neg h, dictGet, if_neg h]
      exact ih hndc.2

theorem dictDel_keys_sublist {κ α : Type} [DecidableEq κ]
    (d : List (κ × α)) (k : κ) :
    List.Sublist ((dictDel d k).map Prod.fst) (d.map Prod.fst) := by
  induction d with
  | nil => simp [dictDel]
  | cons hd tl ih =>
    by_cases h : hd.1 = k
    · simp only [dictDel, if_pos h, List.map_cons]
      exact List.sublist_cons_self _ _
    · simp only [dictDel, if_neg h, List.map_cons]
      exact List.Sublist.cons₂ _ ih

theorem dictSet_nodup_keys {κ α : Type} [DecidableEq κ]
    (d : List (κ × α)) (k : κ) (v : α) (hnd : (d.map Prod.fst).Nodup) :
    ((dictSet d k v).map Prod.fst).Nodup := by
  by_cases h : k ∈ d.map Prod.fst
  · rw [dictSet_keys_of_mem d k v h]
    exact hnd
  · rw [dictSet_keys_of_not_mem d k v h]
    refine List.Nodup.append hnd (List.nodup_singleton k) ?_
    intro a ha hak
    rw [List.mem_singleton] at hak
    subst hak
    exact h ha

theorem dict_nil_of_get_none {κ α : Type} [DecidableEq κ]
    (d : List (κ × α)) (h : ∀ k, dictGet d k = none) : d = [] := by
  cases d with
  | nil => rfl
  | cons hd tl =>
    have := h hd.1
    simp [dictGet] at this

theorem buildChunkFiles_foldl_get (payloads : List (List ℕ)) :
    ∀ (p : List ℕ) (f : List (ℕ × List ℕ)) (i : ℕ),
      dictGet (p.foldl (fun f j => dictSet f j (payloads.getD j [])) f) i
        = if i ∈ p then some (payloads.getD i []) else dictGet f i := by
  intro p
  induction p with
  | nil => intro f i; simp
  | cons j rest ih =>
    intro f i
    rw [List.foldl_cons, ih (dictSet f j (payloads.getD j [])) i]
    by_cases hir : i ∈ rest
    · simp [hir]
    · by_cases hij : i = j
      · subst hij
        simp [hir, dictGet_dictSet_same]
      · simp [hir, hij, dictGet_dictSet_other f j i _ (Ne.symm hij)]

theorem buildChunkFiles_get (payloads : List (List ℕ)) (p : List ℕ) (i : ℕ) :
    dictGet (buildChunkFiles payloads p) i
      = if i ∈ p then some (payloads.getD i []) else none := by
  rw [buildChunkFiles, buildChunkFiles_foldl_get payloads p [] i]
  rfl

theorem buildChunkFiles_foldl_nodup (payloads : List (List ℕ)) :
    ∀ (p : List ℕ) (f : List (ℕ × List ℕ)),
      ((f.map Prod.fst).Nodup) →
      (((p.foldl (fun f j => dictSet f j (payloads.getD j [])) f).map
        Prod.fst).Nodup) := by
  intro p
  induction p with
  | nil => intro f hf; simpa using hf
  | cons j rest ih =>
    intro f hf
    rw [List.foldl_cons]
    exact ih _ (dictSet_nodup_keys f j _ hf)

theorem buildChunkFiles_nodup (payloads : List (List ℕ)) (p : List ℕ) :
    ((buildChunkFiles payloads p).map Prod.fst).Nodup :=
  buildChunkFiles_foldl_nodup payloads p [] (by simp)

theorem buildChunkFiles_append (payloads : List (List ℕ)) (p : List ℕ) (i : ℕ) :
    buildChunkFiles payloads (p ++ [i])
      = dictSet (buildChunkFiles payloads p) i (payloads.getD i []) := by
  simp [buildChunkFiles, List.foldl_append]

theorem readChunks_all (payloads : List (List ℕ)) (files : List (ℕ × List ℕ)) :
    ∀ n, n ≤ payloads.length →
      (∀ i, i < n → dictGet files i = some (payloads.getD i [])) →
      readChunks files n = ((payloads.take n).flatten, true) := by
  intro n
  induction n with
  | zero => intro _ _; simp [readChunks]
  | succ n ih =>
    intro hle hget
    have hprev := ih (Nat.le_of_succ_le hle) (fun i hi => hget i (Nat.lt_succ_of_lt hi))
    have hn : n < payloads.length := hle
    rw [readChunks, hprev]
    simp only [if_pos rfl, hget n (Nat.lt_succ_self n)]
    rw [List.take_succ]
    have : payloads[n]? = some (payloads.getD n []) := by
      rw [List.getElem?_eq_getElem hn, List.getD_eq_getElem payloads [] hn]
    rw [this]
    simp

theorem removeChunks_spec :
    ∀ (n : ℕ) (files : List (ℕ × List ℕ)),
      ((files.map Prod.fst).Nodup) →
      (((removeChunks files n).map Prod.fst).Nodup) ∧
      (∀ k, dictGet (removeChunks files n) k
        = if k < n then none else dictGet files k) := by
  intro n
  induction n with
  | zero => intro files h; exact ⟨h, fun k => by simp [removeChunks]⟩
  | succ n ih =>
    intro files h
    obtain ⟨hnd2, hget2⟩ := ih files h
    rw [removeChunks]
    by_cases hsome : (dictGet (removeChunks files n) n).isSome
    · rw [if_pos hsome]
      refine ⟨(dictDel_keys_sublist _ n).nodup hnd2, ?_⟩
      intro k
      by_cases hk : k = n
      · subst hk
        rw [dictDel_get_self _ k hnd2]
        simp
      · rw [dictDel_get_other _ n k (Ne.symm hk), hget2 k]
        by_cases hlt : k < n
        · simp [hlt, Nat.lt_succ_of_lt hlt]
        · have h2 : ¬(k < n + 1) := by omega
          simp [hlt, h2]
    · rw [if_neg hsome]
      have hnone : dictGet (removeChunks files n) n = none := by
        cases hx : dictGet (removeChunks files n) n
        · rfl
        · rw [hx] at hsome
          simp at hsome
      refine ⟨hnd2, ?_⟩
      intro k
      rw [hget2 k]
      by_cases hk : k = n
      · subst hk
        have hfiles : dictGet files k = none := by
          have h3 := hget2 k
          rw [if_neg (Nat.lt_irrefl k)] at h3
          rw [← h3]
          exact hnone
        rw [if_neg (Nat.lt_irrefl k), if_pos (Nat.lt_succ_self k), hfiles]
      · by_cases hlt : k < n
        · simp [hlt, Nat.lt_succ_of_lt hlt]
        · have h2 : ¬(k < n + 1) := by omega
          simp [hlt, h2]

theorem uploadAll_invariant (uploadId : String) (total : ℕ)
    (payloads : List (List ℕ)) (session0 : UploadSession) :
    ∀ (rest p : List ℕ) (st : UploadServerState),
      (p ++ rest).Nodup →
      dictGet st.uploadSessions uploadId
        = some { session0 with receivedChunks := p } →
      dictGet st.tempFS uploadId = some (buildChunkFiles payloads p) →
      (st.uploadSessions.map Prod.fst).Nodup →
      (st.tempFS.map Prod.fst).Nodup →
      dictGet (uploadAll st uploadId total payloads rest).uploadSessions uploadId
          = some { session0 with receivedChunks := p ++ rest } ∧
      dictGet (uploadAll st uploadId total payloads rest).tempFS uploadId
          = some (buildChunkFiles payloads (p ++ rest)) ∧
      ((uploadAll st uploadId total payloads rest).uploadSessions.map
        Prod.fst).Nodup ∧
      ((uploadAll st uploadId total payloads rest).tempFS.map Prod.fst).Nodup := by
  intro rest
  induction rest with
  | nil =>
    intro p st _ hsess htemp hndS hndT
    exact ⟨by simpa [uploadAll] using hsess, by simpa [uploadAll] using htemp,
      hndS, hndT⟩
  | cons i rest ih =>
    intro p st hnd hsess htemp hndS hndT
    have hnotmem : i ∉ p := fun hip =>
      (List.nodup_append.1 hnd).2.2 hip (List.mem_cons_self i rest)
    have hstep : (uploadChunk st uploadId i total (some (payloads.getD i []))).1
        = { st with
            tempFS := dictSet st.tempFS uploadId
              (dictSet (buildChunkFiles payloads p) i (payloads.getD i [])),
            uploadSessions := dictSet st.uploadSessions uploadId
              { session0 with receivedChunks := p ++ [i] } } := by
      unfold uploadChunk
      rw [hsess, htemp]
      simp only [hnotmem, if_false, ite_false]
      split <;> rfl
    have hrun : uploadAll st uploadId total payloads (i :: rest)
        = uploadAll ((uploadChunk st uploadId i total
            (some (payloads.getD i []))).1) uploadId total payloads rest := by
      simp [uploadAll]
    have hnd2 : ((p ++ [i]) ++ rest).Nodup := by
      rw [List.append_assoc]
      simpa using hnd
    have hres := ih (p ++ [i])
      ((uploadChunk st uploadId i total (some (payloads.getD i []))).1) hnd2
      (by rw [hstep]; exact dictGet_dictSet_same _ _ _)
      (by
        rw [hstep]
        show dictGet (dictSet st.tempFS uploadId _) uploadId = _
        rw [dictGet_dictSet_same, ← buildChunkFiles_append])
      (by rw [hstep]; exact dictSet_nodup_keys _ _ _ hndS)
      (by rw [hstep]; exact dictSet_nodup_keys _ _ _ hndT)
    rw [hrun]
    refine ⟨?_, ?_, hres.2.2.1, hres.2.2.2⟩
    · rw [hres.1, List.append_assoc]
      rfl
    · rw [hres.2.1, List.append_assoc]
      rfl

theorem finalizeUpload_success (md5 : List ℕ → String) (st : UploadServerState)
    (uploadId : String) (session : UploadSession) (checksum : Option String)
    (content : List ℕ)
    (hsess : dictGet st.uploadSessions uploadId = some session)
    (hlen : session.receivedChunks.length = session.chunks)
    (hread : readChunks ((dictGet st.tempFS uploadId).getD []) session.chunks
      = (content, true))
    (hchk : (checksumTruthy checksum
      && decide (md5 content ≠ checksum.getD "")) = false)
    (hrm : removeChunks ((dictGet st.tempFS uploadId).getD []) session.chunks
      = []) :
    finalizeUpload md5 st uploadId checksum
      = ({ st with
          completedFiles := dictSet st.completedFiles session.filename content,
          tempFS := dictDel st.tempFS uploadId,
          metadataFiles := dictSet st.metadataFiles
            (session.filename ++ ".metadata.json") (md5 content),
          uploadSessions := dictDel st.uploadSessions uploadId }, okResponse) := by
  unfold finalizeUpload
  rw [hsess]
  simp only [hread, hrm, hchk, hlen, ne_eq, not_true_eq_false, if_false,
    Bool.not_true, List.isEmpty_nil, ite_false, ite_self]
  rfl

/-- Claim C1: after /upload/init declares a file of N chunks under a fresh
upload id, uploading all N chunk payloads in any order and finalizing with
the checksum of their in-index-order concatenation succeeds with 200, writes
exactly that concatenation into the completed-uploads directory under the
declared filename, and removes the temp chunk files, the per-session temp
directory and the in-memory session. -/
theorem c1_upload_round_trip (md5 : List ℕ → String) (st0 : UploadServerState)
    (uploadId filename : String) (filesize : ℤ) (reqChecksum : Option String)
    (payloads : List (List ℕ)) (order : List ℕ)
    (_hsess0 : dictGet st0.uploadSessions uploadId = none)
    (htemp0 : dictGet st0.tempFS uploadId = none)
    (hndS : (st0.uploadSessions.map Prod.fst).Nodup)
    (hndT : (st0.tempFS.map Prod.fst).Nodup)
    (hperm : order.Perm (List.range payloads.length)) :
    (finalizeUpload md5
        (uploadAll (initializeUpload st0 uploadId filename filesize
            payloads.length reqChecksum).1 uploadId payloads.length payloads
          order)
        uploadId (some (md5 payloads.flatten))).2 = okResponse ∧
    dictGet (finalizeUpload md5
        (uploadAll (initializeUpload st0 uploadId filename filesize
            payloads.length reqChecksum).1 uploadId payloads.length payloads
          order)
        uploadId (some (md5 payloads.flatten))).1.completedFiles filename
      = some payloads.flatten ∧
    dictGet (finalizeUpload md5
        (uploadAll (initializeUpload st0 uploadId filename filesize
            payloads.length reqChecksum).1 uploadId payloads.length payloads
          order)
        uploadId (some (md5 payloads.flatten))).1.tempFS uploadId = none ∧
    dictGet (finalizeUpload md5
        (uploadAll (initializeUpload st0 uploadId filename filesize
            payloads.length reqChecksum).1 uploadId payloads.length payloads
          order)
        uploadId (some (md5 payloads.flatten))).1.uploadSessions uploadId
      = none := by
  have hordnd : order.Nodup := hperm.nodup_iff.mpr (List.nodup_range _)
  have hmem : ∀ i, i ∈ order ↔ i < payloads.length := by
    intro i
    rw [hperm.mem_iff, List.mem_range]
  have ht1eq : (initializeUpload st0 uploadId filename filesize
      payloads.length reqChecksum).1.tempFS = dictSet st0.tempFS uploadId [] := by
    show (match dictGet st0.tempFS uploadId with
      | some _ => st0.tempFS
      | none => dictSet st0.tempFS uploadId []) = _
    rw [htemp0]
  have hinv := uploadAll_invariant uploadId payloads.length payloads
    { filename := filename, filesize := filesize, chunks := payloads.length,
      checksum := reqChecksum, receivedChunks := [] }
    order []
    (initializeUpload st0 uploadId filename filesize payloads.length
      reqChecksum).1
    (by simpa using hordnd)
    (dictGet_dictSet_same st0.uploadSessions uploadId _)
    (by rw [ht1eq, dictGet_dictSet_same]; rfl)
    (dictSet_nodup_keys _ _ _ hndS)
    (by rw [ht1eq]; exact dictSet_nodup_keys _ _ _ hndT)
  obtain ⟨hs2, ht2, hndS2, hndT2⟩ := hinv
  simp only [List.nil_append] at hs2 ht2
  have hfiles : (dictGet (uploadAll (initializeUpload st0 uploadId filename
      filesize payloads.length reqChecksum).1 uploadId payloads.length payloads
      order).tempFS uploadId).getD [] = buildChunkFiles payloads order := by
    rw [ht2]
    rfl
  have hread : readChunks (buildChunkFiles payloads order) payloads.length
      = (payloads.flatten, true) := by
    have := readChunks_all payloads (buildChunkFiles payloads order)
      payloads.length (le_refl _) (fun i hi => by
        rw [buildChunkFiles_get, if_pos ((hmem i).2 hi)])
    rw [this, List.take_length]
  have hrm : removeChunks (buildChunkFiles payloads order) payloads.length
      = [] := by
    refine dict_nil_of_get_none _ ?_
    intro k
    rw [(removeChunks_spec payloads.length (buildChunkFiles payloads order)
      (buildChunkFiles_nodup payloads order)).2 k]
    by_cases hk : k < payloads.length
    · simp [hk]
    · rw [if_neg hk, buildChunkFiles_get,
        if_neg (fun hmem2 => hk ((hmem k).1 hmem2))]
  have hsucc := finalizeUpload_success md5
    (uploadAll (initializeUpload st0 uploadId filename filesize
      payloads.length reqChecksum).1 uploadId payloads.length payloads order)
    uploadId
    { filename := filename, filesize := filesize, chunks := payloads.length,
      checksum := reqChecksum, receivedChunks := order }
    (some (md5 payloads.flatten)) payloads.flatten
    (hs2)
    (by
      show order.length = payloads.length
      rw [hperm.length_eq, List.length_range])
    (by
      show readChunks ((dictGet _ uploadId).getD []) payloads.length = _
      rw [hfiles, hread])
    (by simp)
    (by
      show removeChunks ((dictGet _ uploadId).getD []) payloads.length = []
      rw [hfiles, hrm])
  rw [hsucc]
  refine ⟨rfl, ?_, ?_, ?_⟩
  · exact dictGet_dictSet_same _ _ _
  · exact dictDel_get_self _ uploadId hndT2
  · exact dictDel_get_self _ uploadId hndS2

/-- Checksum function of the C1 witness: the length of the byte list,
rendered as a string. -/
def uploadWitnessMd5 (bs : List ℕ) : String :=
  toString bs.length

/-- Empty observable server state, as at server startup. -/
def emptyUploadServerState : UploadServerState :=
  { uploadSessions := [], tempFS := [], completedFiles := [],
    metadataFiles := [] }

theorem c1_witness :
    (finalizeUpload uploadWitnessMd5
        (uploadAll (initializeUpload emptyUploadServerState "u" "f" 3
            ([[1], [2, 3]] : List (List ℕ)).length none).1 "u"
          ([[1], [2, 3]] : List (List ℕ)).length [[1], [2, 3]] [1, 0])
        "u" (some (uploadWitnessMd5 ([[1], [2, 3]] : List (List ℕ)).flatten))).2
      = okResponse ∧
    dictGet (finalizeUpload uploadWitnessMd5
        (uploadAll (initializeUpload emptyUploadServerState "u" "f" 3
            ([[1], [2, 3]] : List (List ℕ)).length none).1 "u"
          ([[1], [2, 3]] : List (List ℕ)).length [[1], [2, 3]] [1, 0])
        "u" (some (uploadWitnessMd5
          ([[1], [2, 3]] : List (List ℕ)).flatten))).1.completedFiles "f"
      = some ([[1], [2, 3]] : List (List ℕ)).flatten := by
  have h := c1_upload_round_trip uploadWitnessMd5 emptyUploadServerState
    "u" "f" 3 none [[1], [2, 3]] [1, 0] rfl rfl (by decide) (by decide)
    (by decide)
  exact ⟨h.1, h.2.1⟩

/-- Claim C2, amended: finalizing a known session with a received-chunk count
different from the declared count returns 400 with a missing-chunks error and
leaves the whole server state unchanged; finalizing with all chunk files
present and a non-empty supplied checksum that differs from the computed
checksum of the reassembled file returns 400, deletes the reassembled file,
and leaves the sidecar directory, the temp files and the sessions untouched
(so no completed artifact remains).  The amendment restricts the checksum
clause to non-empty supplied checksums: a falsy checksum skips verification. -/
theorem c2_finalize_failure_handling :
    (∀ (md5 : List ℕ → String) (st : UploadServerState) (uploadId : String)
        (session : UploadSession) (checksum : Option String),
      dictGet st.uploadSessions uploadId = some session →
      session.receivedChunks.length ≠ session.chunks →
      finalizeUpload md5 st uploadId checksum
        = (st, errorResponse 400 ("Missing chunks: "
            ++ toString session.receivedChunks.length ++ "/"
            ++ toString session.chunks))) ∧
    (∀ (md5 : List ℕ → String) (st : UploadServerState) (uploadId : String)
        (session : UploadSession) (c : String) (content : List ℕ),
      dictGet st.uploadSessions uploadId = some session →
      session.receivedChunks.length = session.chunks →
      readChunks ((dictGet st.tempFS uploadId).getD []) session.chunks
        = (content, true) →
      c ≠ "" →
      c ≠ md5 content →
      (st.completedFiles.map Prod.fst).Nodup →
      (finalizeUpload md5 st uploadId (some c)).2
          = errorResponse 400 "Checksum mismatch" ∧
      dictGet (finalizeUpload md5 st uploadId (some c)).1.completedFiles
          session.filename = none ∧
      (finalizeUpload md5 st uploadId (some c)).1.tempFS = st.tempFS ∧
      (finalizeUpload md5 st uploadId (some c)).1.metadataFiles
          = st.metadataFiles ∧
      (finalizeUpload md5 st uploadId (some c)).1.uploadSessions
          = st.uploadSessions) := by
  constructor
  · intro md5 st uploadId session checksum hsess hlen
    unfold finalizeUpload
    rw [hsess]
    simp [hlen]
  · intro md5 st uploadId session c content hsess hlen hread hc hcmd hndC
    have hm: (checksumTruthy (some c)
        && decide (md5 content ≠ (some c).getD "")) = true := by
      simp only [checksumTruthy, Option.getD_some, bne_iff_ne, ne_eq,
        decide_not, Bool.and_eq_true, decide_eq_true_eq, Bool.not_eq_true]
      constructor
      · simpa using hc
      · simpa using fun h => hcmd h.symm
    have heq : finalizeUpload md5 st uploadId (some c)
        = ({ st with
            completedFiles := dictDel
              (dictSet st.completedFiles session.filename content)
              session.filename },
          errorResponse 400 "Checksum mismatch") := by
      unfold finalizeUpload
      rw [hsess]
      simp only [hread, hlen, ne_eq, not_true_eq_false, if_false, hm,
        Bool.not_true, ite_false, if_true]
      rfl
    rw [heq]
    exact ⟨rfl,
      dictDel_get_self _ session.filename
        (dictSet_nodup_keys _ _ _ hndC),
      rfl, rfl, rfl⟩

/-- Session of the C2 counterexample: a fully uploaded single-chunk file. -/
def c2CexSession : UploadSession :=
  { filename := "bag.db3", filesize := 3, chunks := 1, checksum := none,
    receivedChunks := [0] }

/-- Server state of the C2 counterexample. -/
def c2CexState : UploadServerState :=
  { uploadSessions := [("u1", c2CexSession)],
    tempFS := [("u1", [(0, [1, 2, 3])])],
    completedFiles := [],
    metadataFiles := [] }

/-- Checksum function of the C2 counterexample: every file hashes to "d". -/
def c2CexMd5 (_bs : List ℕ) : String :=
  "d"

/-- Claim C2 is false as stated: on a session with all chunks present,
finalizing with the supplied checksum "" — which differs from the MD5 of the
reassembled file — succeeds with 200 and leaves the completed artifact in
place, because the handler only verifies truthy checksums. -/
theorem c2_counterexample :
    (finalizeUpload c2CexMd5 c2CexState "u1" (some "")).2 = okResponse ∧
    (some "" : Option String) ≠ some (c2CexMd5 [1, 2, 3]) ∧
    dictGet (finalizeUpload c2CexMd5 c2CexState "u1"
        (some "")).1.completedFiles "bag.db3" = some [1, 2, 3] := by
  refine ⟨by decide, by decide, by decide⟩

theorem c2_witness :
    finalizeUpload c2CexMd5 c2CexState "u1" (some "x")
        = (c2CexState, errorResponse 400 "Missing chunks: 1/1") ∨
    ((finalizeUpload c2CexMd5 c2CexState "u1" (some "x")).2
        = errorResponse 400 "Checksum mismatch" ∧
      dictGet (finalizeUpload c2CexMd5 c2CexState "u1"
        (some "x")).1.completedFiles "bag.db3" = none) := by
  have h := c2_finalize_failure_handling.2 c2CexMd5 c2CexState "u1"
    c2CexSession "x" [1, 2, 3] rfl rfl (by decide) (by decide) (by decide)
    (by decide)
  exact Or.inr ⟨h.1, h.2.1⟩
